import Mathlib

set_option maxRecDepth 8000

/-!
Shallow embedding of the GRDECL corner-point grid parser and cell-geometry
reconstructor of `src/lib/utils/grdeclParser.ts`, together with the synthetic
Cartesian grid generator `createCartesianGRDECL` of
`src/lib/command/functionRegistry.ts`.

JavaScript numbers are idealised as exact rationals extended with `NaN` and
the two signed infinities (IEEE rounding of the underlying arithmetic and the
negative zero are abstracted away; no claim depends on them).  `undefined`,
the result of reading past the end of an array, is a separate value `JSVal.undefined`
that coerces to `NaN` in arithmetic and makes `Number.prototype.toFixed` throw.
The parser source contains no `throw` statement and constructs no error object;
the only runtime failure it can produce is an untyped JavaScript `TypeError`
(calling `toFixed` on `undefined`, or destructuring an `undefined` pillar),
modelled by the one-constructor type `JsErr`.

Rational arithmetic and string handling are implemented from first principles
(structural recursion over `ℤ`/`ℕ`/`List Char`) so that every definition in
this file evaluates inside the kernel.
-/

deriving instance DecidableEq for Except

/-! ## Executable arithmetic on `ℚ` -/

/-- Build the canonical rational `n / d` (`d ≠ 0`). -/
def qmk (n : ℤ) (d : ℕ) (hd : d ≠ 0) : ℚ :=
  let g := n.natAbs.gcd d
  have hg : g ≠ 0 := Nat.gcd_ne_zero_right hd
  have hden : d / g ≠ 0 :=
    (Nat.div_pos (Nat.le_of_dvd (Nat.pos_of_ne_zero hd) (Nat.gcd_dvd_right _ _))
      (Nat.pos_of_ne_zero hg)).ne'
  have hco : (n.natAbs / g).Coprime (d / g) :=
    Nat.coprime_div_gcd_div_gcd (Nat.pos_of_ne_zero hg)
  if n < 0 then
    ⟨-((n.natAbs / g : ℕ) : ℤ), d / g, hden,
      by rw [Int.natAbs_neg, Int.natAbs_ofNat]; exact hco⟩
  else
    ⟨((n.natAbs / g : ℕ) : ℤ), d / g, hden,
      by rw [Int.natAbs_ofNat]; exact hco⟩

/-- The rational with value the natural number `n`. -/
def qofNat (n : ℕ) : ℚ := ⟨(n : ℤ), 1, one_ne_zero, Nat.coprime_one_right _⟩

/-- Negation. -/
def qneg (a : ℚ) : ℚ := ⟨-a.num, a.den, a.den_nz, by simpa using a.reduced⟩

/-- Addition. -/
def qadd (a b : ℚ) : ℚ :=
  qmk (a.num * (b.den : ℤ) + b.num * (a.den : ℤ)) (a.den * b.den)
    (Nat.mul_ne_zero a.den_nz b.den_nz)

/-- Subtraction. -/
def qsub (a b : ℚ) : ℚ :=
  qmk (a.num * (b.den : ℤ) - b.num * (a.den : ℤ)) (a.den * b.den)
    (Nat.mul_ne_zero a.den_nz b.den_nz)

/-- Multiplication. -/
def qmul (a b : ℚ) : ℚ :=
  qmk (a.num * b.num) (a.den * b.den) (Nat.mul_ne_zero a.den_nz b.den_nz)

/-- Division (the JavaScript-level division-by-zero cases are dispatched
before this is reached; on a zero divisor it returns `0`). -/
def qdiv (a b : ℚ) : ℚ :=
  if hb : b.num = 0 then 0
  else if b.num < 0 then
    qmk (-(a.num * (b.den : ℤ))) (a.den * b.num.natAbs)
      (Nat.mul_ne_zero a.den_nz (Int.natAbs_ne_zero.mpr hb))
  else
    qmk (a.num * (b.den : ℤ)) (a.den * b.num.natAbs)
      (Nat.mul_ne_zero a.den_nz (Int.natAbs_ne_zero.mpr hb))

/-! ## JavaScript values -/

/-- A JavaScript number: a finite (exact) rational, `NaN`, or `±Infinity`. -/
inductive JSNum where
  | fin (q : ℚ)
  | nan
  | inf (neg : Bool)
deriving DecidableEq, Repr

/-- A JavaScript value read out of a `number[]` array: a number, or
`undefined` when the index is out of range. -/
inductive JSVal where
  | num (v : JSNum)
  | undefined
deriving DecidableEq, Repr

/-- The only runtime error the parser can raise: an untyped JavaScript
`TypeError`.  The source never constructs a typed error of its own. -/
inductive JsErr where
  | typeError
deriving DecidableEq, Repr

/-- Arithmetic on `undefined` first coerces it to `NaN`. -/
def JSVal.toNum : JSVal → JSNum
  | .num v => v
  | .undefined => .nan

namespace JSNum

/-- JavaScript `+` on numbers. -/
def add : JSNum → JSNum → JSNum
  | nan, _ => nan
  | _, nan => nan
  | fin a, fin b => fin (qadd a b)
  | inf s, fin _ => inf s
  | fin _, inf s => inf s
  | inf s, inf t => if s = t then inf s else nan

/-- JavaScript `-` on numbers. -/
def sub : JSNum → JSNum → JSNum
  | nan, _ => nan
  | _, nan => nan
  | fin a, fin b => fin (qsub a b)
  | inf s, fin _ => inf s
  | fin _, inf s => inf !s
  | inf s, inf t => if s = t then nan else inf s

/-- JavaScript `*` on numbers. -/
def mul : JSNum → JSNum → JSNum
  | nan, _ => nan
  | _, nan => nan
  | fin a, fin b => fin (qmul a b)
  | inf s, fin b => if b.num = 0 then nan else inf (Bool.xor s (decide (b.num < 0)))
  | fin a, inf s => if a.num = 0 then nan else inf (Bool.xor s (decide (a.num < 0)))
  | inf s, inf t => inf (Bool.xor s t)

/-- JavaScript `/` on numbers (division of a nonzero number by zero yields
`±Infinity`, `0/0` yields `NaN`). -/
def div : JSNum → JSNum → JSNum
  | nan, _ => nan
  | _, nan => nan
  | fin a, fin b =>
      if b.num = 0 then (if a.num = 0 then nan else inf (decide (a.num < 0)))
      else fin (qdiv a b)
  | fin _, inf _ => fin 0
  | inf s, fin b => inf (Bool.xor s (decide (b.num < 0)))
  | inf _, inf _ => nan

/-- Whether the value is a finite number (neither `NaN` nor infinite). -/
def isFinite : JSNum → Bool
  | fin _ => true
  | _ => false

/-- Number of iterations of a JavaScript loop `for (let i = 0; i < n; i++)`
whose bound `n` is this value (`⌈n⌉` clamped to `0`).  A `NaN` bound runs
zero iterations.  All bounds reachable from the parser are integers produced
by `parseInt` or `NaN`, so the (unreachable) infinite-bound case is also
mapped to zero. -/
def toLoopBound : JSNum → ℕ
  | fin q => if q.num ≤ 0 then 0 else (q.num.toNat + q.den - 1) / q.den
  | _ => 0

end JSNum

/-- The content of the string `x.toFixed(6)` used as a deduplication key:
for a finite number ECMA-262 takes the sign of `x` (so `-1e-7` prints as
`"-0.000000"`, distinct from `"0.000000"`) and rounds `|x| * 10^6` to the
nearest integer, ties upward; `NaN` prints `"NaN"` and the infinities print
`"±Infinity"`. -/
inductive FixedKey where
  | num (neg : Bool) (n : ℕ)
  | nan
  | inf (neg : Bool)
deriving DecidableEq, Repr

/-- Model of `Number.prototype.toFixed(6)`: the rounded integer is
`⌊|q| * 10^6 + 1/2⌋ = (|num| * 2000000 + den) / (2 * den)`. -/
def toFixed6 : JSNum → FixedKey
  | .fin q => .num (decide (q.num < 0)) ((q.num.natAbs * 2000000 + q.den) / (2 * q.den))
  | .nan => .nan
  | .inf s => .inf s

/-! ## Character-list string operations (JavaScript string semantics) -/

/-- One step of splitting at every separator character (JavaScript
`String.prototype.split` keeps empty pieces). -/
def splitCharsGo (p : Char → Bool) (cur : List Char) : List Char → List (List Char)
  | [] => [cur.reverse]
  | c :: r => if p c then cur.reverse :: splitCharsGo p [] r else splitCharsGo p (c :: cur) r

/-- Split a character list at every character satisfying `p`. -/
def splitCharsOn (p : Char → Bool) (l : List Char) : List (List Char) :=
  splitCharsGo p [] l

/-- JavaScript `trim`. -/
def trimChars (l : List Char) : List Char :=
  ((l.dropWhile Char.isWhitespace).reverse.dropWhile Char.isWhitespace).reverse

/-- JavaScript `startsWith`. -/
def startsWithChars (pre l : List Char) : Bool := pre.isPrefixOf l

/-- JavaScript `endsWith`. -/
def endsWithChars (suf l : List Char) : Bool := suf.reverse.isPrefixOf l.reverse

/-- JavaScript `array.join(' ')`. -/
def joinSpace : List (List Char) → List Char
  | [] => []
  | [x] => x
  | x :: y :: r => x ++ ' ' :: joinSpace (y :: r)

/-! ## Numeric token parsing -/

/-- Value of a list of decimal digit characters. -/
def digitsVal (cs : List Char) : ℕ :=
  cs.foldl (fun a c => 10 * a + (c.toNat - 48)) 0

/-- Split an optional leading sign off a character list. -/
def splitSign : List Char → Bool × List Char
  | '-' :: r => (true, r)
  | '+' :: r => (false, r)
  | cs => (false, cs)

/-- Model of JavaScript `parseInt` (base 10) on the tokens the parser feeds
it: optional leading whitespace and sign, then the longest run of decimal
digits; `NaN` when there is none. -/
def jsParseInt (s : List Char) : JSNum :=
  let cs := s.dropWhile Char.isWhitespace
  let (neg, cs1) := splitSign cs
  let ds := cs1.takeWhile Char.isDigit
  if ds.isEmpty then .nan
  else .fin (if neg then qneg (qofNat (digitsVal ds)) else qofNat (digitsVal ds))

/-- `parseInt` applied to a possibly-`undefined` argument (reading past the
end of a token array): `parseInt(undefined)` is `NaN`. -/
def jsParseIntOpt : Option (List Char) → JSNum
  | none => .nan
  | some s => jsParseInt s

/-- Model of JavaScript `parseFloat`: longest numeric prefix
`[±](digits[.digits]|.digits)[e|E[±]digits]`, or `±Infinity`; `NaN` when no
prefix parses. -/
def jsParseFloat (s : List Char) : JSNum :=
  let cs := s.dropWhile Char.isWhitespace
  let (neg, cs1) := splitSign cs
  if cs1.take 8 = "Infinity".toList then .inf neg
  else
    let ip := cs1.takeWhile Char.isDigit
    let rest2 := cs1.dropWhile Char.isDigit
    let (fp, rest3) :=
      match rest2 with
      | '.' :: r => (r.takeWhile Char.isDigit, r.dropWhile Char.isDigit)
      | _ => ([], rest2)
    if ip.isEmpty ∧ fp.isEmpty then .nan
    else
      let ex : ℤ :=
        match rest3 with
        | c :: r =>
            if c = 'e' ∨ c = 'E' then
              let (eneg, r2) := splitSign r
              let eds := r2.takeWhile Char.isDigit
              if eds.isEmpty then 0
              else if eneg then -(digitsVal eds : ℤ) else (digitsVal eds : ℤ)
            else 0
        | [] => 0
      let mantNum : ℕ := digitsVal ip * 10 ^ fp.length + digitsVal fp
      let sgn : ℤ := if neg then -1 else 1
      if ex < 0 then
        .fin (qmk (sgn * mantNum) (10 ^ fp.length * 10 ^ (-ex).toNat)
          (Nat.mul_ne_zero (pow_ne_zero _ (by decide)) (pow_ne_zero _ (by decide))))
      else
        .fin (qmk (sgn * mantNum * 10 ^ ex.toNat) (10 ^ fp.length)
          (pow_ne_zero _ (by decide)))

/-- `data.join(' ').split(/\s+/)`; a per-character split produces extra empty
tokens compared to the run-splitting regex, but every consumer filters empty
tokens away immediately, after which the two agree. -/
def joinSplitWs (data : List (List Char)) : List (List Char) :=
  splitCharsOn Char.isWhitespace (joinSpace data)

/-! ## Section parsers -/

/-- Grid dimensions as parsed from SPECGRID (each may be `NaN`). -/
structure Specgrid where
  nx : JSNum
  ny : JSNum
  nz : JSNum
deriving DecidableEq, Repr

/-- `parseSpecgrid`: first three numeric tokens (tokens containing `/` and
the flag token `F` are discarded); a missing token parses to `NaN`. -/
def parseSpecgrid (data : List (List Char)) : Specgrid :=
  let values := (joinSplitWs data).filter
    (fun v => v.length > 0 && !(v.contains '/') && v ≠ ['F'])
  { nx := jsParseIntOpt (values.get? 0)
    ny := jsParseIntOpt (values.get? 1)
    nz := jsParseIntOpt (values.get? 2) }

/-- Option-read of a parsed float array, giving `undefined` past the end. -/
def floatAt (values : List JSNum) (n : ℕ) : JSVal :=
  match values.get? n with
  | some v => .num v
  | none => .undefined

/-- One pillar record: 6 consecutive values (reads past the end of the value
array give `undefined`, as in the source's `values[i + 5]`). -/
def pillarChunk (values : List JSNum) (base : ℕ) : List JSVal :=
  [floatAt values base, floatAt values (base + 1), floatAt values (base + 2),
   floatAt values (base + 3), floatAt values (base + 4), floatAt values (base + 5)]

/-- The loop `for (let i = 0; i < values.length; i += 6)` grouping parsed
COORD floats into pillars of 6. -/
def chunkPillars (values : List JSNum) (base : ℕ) : List JSNum → List (List JSVal)
  | [] => []
  | _ :: _ :: _ :: _ :: _ :: _ :: r =>
      pillarChunk values base :: chunkPillars values (base + 6) r
  | _ :: _ => [pillarChunk values base]

/-- `parseCoord`: tokens parsed as floats, grouped in chunks of 6. -/
def parseCoord (data : List (List Char)) : List (List JSVal) :=
  let values := ((joinSplitWs data).filter
    (fun v => v.length > 0 && !(v.contains '/'))).map jsParseFloat
  chunkPillars values 0 values

/-- `parseZcorn`: all tokens parsed as floats, in order. -/
def parseZcorn (data : List (List Char)) : List JSNum :=
  ((joinSplitWs data).filter
    (fun v => v.length > 0 && !(v.contains '/'))).map jsParseFloat

/-- Expansion of one ACTNUM token: a compressed `count*value` pair repeats
`value` `count` times, a plain token contributes itself. -/
def expandToken (token : List Char) : List JSNum :=
  if token.contains '*' then
    let parts := splitCharsOn (fun c => c = '*') token
    let repeatCount := jsParseIntOpt (parts.get? 0)
    let repeatValue := jsParseIntOpt (parts.get? 1)
    List.replicate repeatCount.toLoopBound repeatValue
  else
    [jsParseInt token]

/-- The filtered ACTNUM tokens. -/
def actnumTokens (data : List (List Char)) : List (List Char) :=
  (joinSplitWs data).filter (fun v => v.length > 0 && !(v.contains '/'))

/-- `parseActnum`: expand every token in order; if the resulting array is
empty, fill with `nx*ny*nz` ones. -/
def parseActnum (data : List (List Char)) (specgrid : Specgrid) : List JSNum :=
  let tokens := actnumTokens data
  let actnum := tokens.foldl (fun acc token => acc ++ expandToken token) []
  let totalCells := (specgrid.nx.mul specgrid.ny).mul specgrid.nz
  if actnum = [] then List.replicate totalCells.toLoopBound (.fin (qofNat 1))
  else actnum

/-! ## Vertex pool -/

/-- A cell corner point as the source stores it: x and y are always numbers
(results of arithmetic), z is whatever was read from ZCORN and may be
`undefined`. -/
abbrev Point3 := JSNum × JSNum × JSVal

/-- The deduplication key `x.toFixed(6) + "," + y.toFixed(6) + "," +
z.toFixed(6)`; the components contain no comma, so the string is equivalent
to the triple.  Evaluating it throws a `TypeError` when z is `undefined`. -/
def vkey3 (v : Point3) : Except JsErr (FixedKey × FixedKey × FixedKey) :=
  match v.2.2 with
  | .undefined => .error .typeError
  | .num z => .ok (toFixed6 v.1, toFixed6 v.2.1, toFixed6 z)

/-- The reconstruction pass's shared vertex pool: the `allVertices` array,
the `vertexMap` from keys to indices, and the `vertexIndex` counter. -/
structure VPool where
  verts : List Point3
  map : List ((FixedKey × FixedKey × FixedKey) × ℕ)
  nextIdx : ℕ
deriving DecidableEq, Repr

def VPool.empty : VPool := ⟨[], [], 0⟩

/-- `addVertex`: look the rounded key up; on a hit return the existing pool
index, otherwise append the point and assign the next index. -/
def addVertex (p : VPool) (v : Point3) : Except JsErr (VPool × ℕ) :=
  match vkey3 v with
  | .error e => .error e
  | .ok key =>
    match p.map.lookup key with
    | some idx => .ok (p, idx)
    | none =>
        .ok ({ verts := p.verts ++ [v], map := (key, p.nextIdx) :: p.map,
               nextIdx := p.nextIdx + 1 }, p.nextIdx)

/-- Register a cell's corners one after the other (the loop
`for (const vert of cellVerts) addVertex(...)`). -/
def addVerts (p : VPool) : List Point3 → Except JsErr VPool
  | [] => .ok p
  | v :: vs =>
    match addVertex p v with
    | .ok (p', _) => addVerts p' vs
    | .error e => .error e

/-! ## Geometry reconstructor -/

/-- `getPillarIndex(i, j) = j * (nx + 1) + i`. -/
def getPillarIndex (NX i j : ℕ) : ℕ := j * (NX + 1) + i

/-- `interpolatePillar`: destructure the pillar record (missing entries are
`undefined`, which turns into `NaN` in the arithmetic), interpolate x and y
linearly to depth z, and pass z through unchanged. -/
def interpolatePillar (pillar : List JSVal) (z : JSVal) : Point3 :=
  let x1 := (pillar.getD 0 .undefined).toNum
  let y1 := (pillar.getD 1 .undefined).toNum
  let z1 := (pillar.getD 2 .undefined).toNum
  let x2 := (pillar.getD 3 .undefined).toNum
  let y2 := (pillar.getD 4 .undefined).toNum
  let z2 := (pillar.getD 5 .undefined).toNum
  let t := (z.toNum.sub z1).div (z2.sub z1)
  (x1.add (t.mul (x2.sub x1)), y1.add (t.mul (y2.sub y1)), z)

/-- Read `zcorn[n]`, `undefined` past the end. -/
def zAt (zcorn : List JSNum) (n : ℕ) : JSVal :=
  match zcorn.get? n with
  | some v => .num v
  | none => .undefined

/-- The 8 corner points of one active cell, in the fixed order 0..7 of the
source (corners 0/4 on pillar (i,j), 1/5 on (i+1,j), 2/6 on (i+1,j+1),
3/7 on (i,j+1)). -/
def corners8 (p00 p10 p11 p01 : List JSVal) (z0 z1 z2 z3 z4 z5 z6 z7 : JSVal) :
    List Point3 :=
  [interpolatePillar p00 z0, interpolatePillar p10 z1,
   interpolatePillar p11 z2, interpolatePillar p01 z3,
   interpolatePillar p00 z4, interpolatePillar p10 z5,
   interpolatePillar p11 z6, interpolatePillar p01 z7]

/-- Mutable state of one reconstruction pass. -/
structure GenState where
  pool : VPool
  cellVertices : List (List Point3)
  activeCellCount : ℕ
deriving DecidableEq, Repr

def GenState.init : GenState := ⟨VPool.empty, [], 0⟩

/-- The ZCORN base offset `2 * (i + j * (2 * nx) + k * (2 * nx * 2 * ny))`. -/
def zcornOffset (NX NY i j k : ℕ) : ℕ := 2 * (i + j * (2 * NX) + k * (2 * NX * (2 * NY)))

/-- Body of the reconstruction loop for one cell `(i, j, k)`.  Inside the
loop the JavaScript dimension values are the positive integers `NX`, `NY`, so
the index arithmetic is carried out over `ℕ`.  An inactive cell
(`actnum[cellIdx] === 0`) stores an empty corner list; otherwise the corners
are computed, stored, and registered in the pool.  A missing pillar record
(destructured `undefined`) or an `undefined` ZCORN read reaching `toFixed`
raises the untyped `TypeError`. -/
def processCell (NX NY : ℕ) (coord : List (List JSVal)) (zcorn : List JSNum)
    (actnum : List JSNum) (st : GenState) (c : ℕ × ℕ × ℕ) : Except JsErr GenState :=
  let i := c.1
  let j := c.2.1
  let k := c.2.2
  let cellIdx := i + j * NX + k * (NX * NY)
  if actnum.get? cellIdx = some (JSNum.fin (qofNat 0)) then
    .ok { st with cellVertices := st.cellVertices ++ [[]] }
  else
    let off := zcornOffset NX NY i j k
    match coord.get? (getPillarIndex NX i j), coord.get? (getPillarIndex NX (i + 1) j),
          coord.get? (getPillarIndex NX (i + 1) (j + 1)), coord.get? (getPillarIndex NX i (j + 1)) with
    | some p00, some p10, some p11, some p01 =>
        let cs := corners8 p00 p10 p11 p01
          (zAt zcorn off) (zAt zcorn (off + 1))
          (zAt zcorn (off + 2 * NX + 1)) (zAt zcorn (off + 2 * NX))
          (zAt zcorn (off + 4 * (NX * NY))) (zAt zcorn (off + 4 * (NX * NY) + 1))
          (zAt zcorn (off + 4 * (NX * NY) + 2 * NX + 1)) (zAt zcorn (off + 4 * (NX * NY) + 2 * NX))
        match addVerts st.pool cs with
        | .ok pool' =>
            .ok { pool := pool',
                  cellVertices := st.cellVertices ++ [cs],
                  activeCellCount := st.activeCellCount + 1 }
        | .error e => .error e
    | _, _, _, _ => .error .typeError

/-- The triple loop `for k, for j, for i` as the ordered list of visited
cells. -/
def cellEnum (NX NY NZ : ℕ) : List (ℕ × ℕ × ℕ) :=
  (List.range NZ).flatMap fun k =>
    (List.range NY).flatMap fun j =>
      (List.range NX).map fun i => (i, j, k)

/-- Run the loop body over the cells in order, aborting on the first
(untyped) runtime error. -/
def foldCells (NX NY : ℕ) (coord : List (List JSVal)) (zcorn : List JSNum)
    (actnum : List JSNum) (st : GenState) : List (ℕ × ℕ × ℕ) → Except JsErr GenState
  | [] => .ok st
  | c :: cs =>
    match processCell NX NY coord zcorn actnum st c with
    | .ok st' => foldCells NX NY coord zcorn actnum st' cs
    | .error e => .error e

/-- The `cells` component of the parser's output. -/
structure CellsResult where
  num : ℕ
  vertices : List Point3
  cellVertices : List (List Point3)
deriving DecidableEq, Repr

/-- `generateCellVertices`: walk the (i,j,k) index space and build the
per-cell corner lists, the deduplicated vertex pool and the active-cell
count. -/
def generateCellVertices (specgrid : Specgrid) (coord : List (List JSVal))
    (zcorn : List JSNum) (actnum : List JSNum) : Except JsErr CellsResult :=
  let NX := specgrid.nx.toLoopBound
  let NY := specgrid.ny.toLoopBound
  let NZ := specgrid.nz.toLoopBound
  match foldCells NX NY coord zcorn actnum GenState.init (cellEnum NX NY NZ) with
  | .ok st => .ok ⟨st.activeCellCount, st.pool.verts, st.cellVertices⟩
  | .error e => .error e

/-! ## Section loop of `parseGrdecl` -/

/-- The parse loop's mutable state. -/
structure PState where
  specgrid : Specgrid
  coord : List (List JSVal)
  zcorn : List JSNum
  actnum : List JSNum
  currentSection : String
  sectionData : List (List Char)
deriving Repr

def PState.init : PState :=
  ⟨⟨.fin (qofNat 0), .fin (qofNat 0), .fin (qofNat 0)⟩, [], [], [], "", []⟩

/-- End-of-section dispatch: parse the collected lines of the section that
just closed. -/
def closeSection (st : PState) : PState :=
  if st.currentSection = "SPECGRID" then
    { st with specgrid := parseSpecgrid st.sectionData }
  else if st.currentSection = "COORD" then
    { st with coord := parseCoord st.sectionData }
  else if st.currentSection = "ZCORN" then
    { st with zcorn := parseZcorn st.sectionData }
  else if st.currentSection = "ACTNUM" then
    { st with actnum := parseActnum st.sectionData st.specgrid }
  else st

/-- One iteration of the line loop of `parseGrdecl`. -/
def processLine (st : PState) (line : List Char) : PState :=
  if startsWithChars "SPECGRID".toList line then
    { st with currentSection := "SPECGRID", sectionData := [] }
  else if startsWithChars "COORD".toList line then
    { st with currentSection := "COORD", sectionData := [] }
  else if startsWithChars "ZCORN".toList line then
    { st with currentSection := "ZCORN", sectionData := [] }
  else if startsWithChars "ACTNUM".toList line then
    { st with currentSection := "ACTNUM", sectionData := [] }
  else if line = ['/'] ∨ endsWithChars ['/'] line then
    let st1 :=
      if line.length > 1 ∧ st.currentSection ≠ "" then
        let dataBeforeSlash := trimChars line.dropLast
        if dataBeforeSlash.length > 0 then
          { st with sectionData := st.sectionData ++ [dataBeforeSlash] }
        else st
      else st
    { closeSection st1 with currentSection := "", sectionData := [] }
  else if st.currentSection ≠ "" ∧ line.length > 0 then
    { st with sectionData := st.sectionData ++ [line] }
  else st

/-- The trimmed lines of the input. -/
def linesOf (content : String) : List (List Char) :=
  (splitCharsOn (fun c => c = '\n') content.toList).map trimChars

/-- The full parsed structure returned by `parseGrdecl`. -/
structure GrdeclData where
  specgrid : Specgrid
  coord : List (List JSVal)
  zcorn : List JSNum
  actnum : List JSNum
  cells : CellsResult
deriving DecidableEq, Repr

/-- `parseGrdecl`: run the section loop over the trimmed lines, then build
the cell geometry; a runtime `TypeError` in the reconstruction propagates
out. -/
def parseGrdecl (fileContent : String) : Except JsErr GrdeclData :=
  let st := (linesOf fileContent).foldl processLine PState.init
  match generateCellVertices st.specgrid st.coord st.zcorn st.actnum with
  | .ok cells => .ok ⟨st.specgrid, st.coord, st.zcorn, st.actnum, cells⟩
  | .error e => .error e

/-! ## Synthetic Cartesian generator (`createCartesianGRDECL`) -/

/-- Output shape of `createCartesianGRDECL` (the `cells.cellVertices` are
plain coordinate triples; the generator builds no deduplicated pool). -/
structure CartGrdecl where
  specgrid : Specgrid
  coord : List ℚ
  zcorn : List ℚ
  actnum : List ℚ
  num : ℕ
  cellVertices : List (List (ℚ × ℚ × ℚ))
deriving DecidableEq, Repr

/-- `createCartesianGRDECL`: a regular box grid with the fixed cell spacing
dx = 10, dy = 10, dz = 1 of the source. -/
def createCartesianGRDECL (nx ny nz : ℕ) : CartGrdecl :=
  let dx : ℚ := qofNat 10
  let dy : ℚ := qofNat 10
  let dz : ℚ := qofNat 1
  let totalCells := nx * ny * nz
  let coord : List ℚ :=
    (List.range (ny + 1)).flatMap fun j =>
      (List.range (nx + 1)).flatMap fun i =>
        [qmul (qofNat i) dx, qmul (qofNat j) dy, qofNat 0,
         qmul (qofNat i) dx, qmul (qofNat j) dy, qmul (qofNat nz) dz]
  let zcorn : List ℚ :=
    (List.range nz).flatMap fun k =>
      ((List.range ny).flatMap fun _ =>
        (List.range nx).flatMap fun _ =>
          [qmul (qofNat k) dz, qmul (qofNat k) dz, qmul (qofNat k) dz, qmul (qofNat k) dz]) ++
      ((List.range ny).flatMap fun _ =>
        (List.range nx).flatMap fun _ =>
          [qmul (qofNat (k + 1)) dz, qmul (qofNat (k + 1)) dz,
           qmul (qofNat (k + 1)) dz, qmul (qofNat (k + 1)) dz])
  let actnum : List ℚ := List.replicate totalCells (qofNat 1)
  let cellVertices : List (List (ℚ × ℚ × ℚ)) :=
    (List.range nz).flatMap fun k =>
      (List.range ny).flatMap fun j =>
        (List.range nx).map fun i =>
          let x0 := qmul (qofNat i) dx
          let x1 := qmul (qofNat (i + 1)) dx
          let y0 := qmul (qofNat j) dy
          let y1 := qmul (qofNat (j + 1)) dy
          let z0 := qmul (qofNat k) dz
          let z1 := qmul (qofNat (k + 1)) dz
          [(x0, y0, z0), (x1, y0, z0), (x1, y1, z0), (x0, y1, z0),
           (x0, y0, z1), (x1, y0, z1), (x1, y1, z1), (x0, y1, z1)]
  { specgrid := ⟨.fin (qofNat nx), .fin (qofNat ny), .fin (qofNat nz)⟩
    coord := coord
    zcorn := zcorn
    actnum := actnum
    num := totalCells
    cellVertices := cellVertices }

/-- View of a generator corner point in the parser's corner representation. -/
def toP3 (p : ℚ × ℚ × ℚ) : Point3 := (.fin p.1, .fin p.2.1, .num (.fin p.2.2))

/-! ## Projections used to state closed facts about concrete inputs -/

def GrdeclData.default : GrdeclData :=
  ⟨⟨.fin (qofNat 0), .fin (qofNat 0), .fin (qofNat 0)⟩, [], [], [], ⟨0, [], []⟩⟩

/-- The parsed structure of an input, defaulting when parsing raised. -/
def parsedData (t : String) : GrdeclData :=
  match parseGrdecl t with
  | .ok d => d
  | .error _ => GrdeclData.default

def parsedNum (t : String) : ℕ := (parsedData t).cells.num

def parsedActnum (t : String) : List JSNum := (parsedData t).actnum

/-- All corner points stored in `cells.cellVertices`, flattened. -/
def parsedCorners (t : String) : List Point3 :=
  ((parsedData t).cells.cellVertices).flatten

/-- The deduplicated vertex pool of the parse. -/
def parsedPool (t : String) : List Point3 := (parsedData t).cells.vertices

/-! ## Helper lemmas: ranges and flat maps -/

theorem toLoopBound_qofNat (n : ℕ) : (JSNum.fin (qofNat n)).toLoopBound = n := by
  unfold JSNum.toLoopBound qofNat
  by_cases h : n = 0
  · subst h; simp
  · have hpos : ¬ ((n : ℤ) ≤ 0) := by
      simp only [not_le]
      exact_mod_cast Nat.pos_of_ne_zero h
    simp only [hpos, if_false]
    simp

theorem length_flatMap_const {α : Type} (f : ℕ → List α) (L : ℕ)
    (hf : ∀ m, (f m).length = L) (n : ℕ) :
    ((List.range n).flatMap f).length = n * L := by
  induction n with
  | zero => simp
  | succ m ih =>
    rw [List.range_succ, List.flatMap_append]
    simp [ih, hf, Nat.succ_mul]

theorem get?_flatMap_blocks {α : Type} (f : ℕ → List α) (L : ℕ)
    (hf : ∀ m, (f m).length = L) (b r n : ℕ) (hb : b < n) (hr : r < L) :
    ((List.range n).flatMap f).get? (b * L + r) = (f b).get? r := by
  induction n with
  | zero => omega
  | succ m ih =>
    rw [List.range_succ, List.flatMap_append]
    rcases Nat.lt_or_ge b m with h | h
    · rw [List.get?_append]
      · exact ih h
      · rw [length_flatMap_const f L hf]
        have : (b + 1) * L ≤ m * L := Nat.mul_le_mul_right _ h
        have : b * L + r < b * L + L := by omega
        calc b * L + r < (b + 1) * L := by rw [Nat.succ_mul]; omega
          _ ≤ m * L := Nat.mul_le_mul_right _ h
    · have hbm : b = m := by omega
      subst hbm
      rw [List.get?_append_right]
      · rw [length_flatMap_const f L hf]
        simp [Nat.add_sub_cancel_left]
      · rw [length_flatMap_const f L hf]
        omega

theorem blocks_range (L n c : ℕ) :
    (List.range n).flatMap (fun b => (List.range L).map (fun r => r + (b * L + c))) =
      (List.range (n * L)).map (· + c) := by
  induction n with
  | zero => simp
  | succ m ih =>
    rw [List.range_succ, List.flatMap_append, ih, Nat.succ_mul, List.range_add,
      List.map_append]
    congr 1
    simp only [List.flatMap_cons, List.flatMap_nil, List.append_nil, List.map_map]
    apply List.map_congr_left
    intro r _
    simp [Function.comp]
    omega

/-- Linear cell index `i + j*nx + k*nx*ny`. -/
def linIdx (NX NY : ℕ) (c : ℕ × ℕ × ℕ) : ℕ := c.1 + c.2.1 * NX + c.2.2 * (NX * NY)

theorem cellEnum_mem {NX NY NZ : ℕ} {c : ℕ × ℕ × ℕ} :
    c ∈ cellEnum NX NY NZ ↔ c.1 < NX ∧ c.2.1 < NY ∧ c.2.2 < NZ := by
  obtain ⟨i, j, k⟩ := c
  simp only [cellEnum, List.mem_flatMap, List.mem_map, List.mem_range]
  constructor
  · rintro ⟨k', hk', j', hj', i', hi', h⟩
    obtain ⟨rfl, rfl, rfl⟩ : i' = i ∧ j' = j ∧ k' = k := by
      simpa [Prod.ext_iff] using h
    exact ⟨hi', hj', hk'⟩
  · rintro ⟨hi, hj, hk⟩
    exact ⟨k, hk, j, hj, i, hi, rfl⟩

theorem cellEnum_plane_length (NX NY : ℕ) (k : ℕ) :
    ((List.range NY).flatMap fun j => (List.range NX).map fun i => (i, j, k)).length
      = NY * NX := by
  apply length_flatMap_const
  intro m
  simp

theorem cellEnum_get? {NX NY NZ : ℕ} {i j k : ℕ} (hi : i < NX) (hj : j < NY) (hk : k < NZ) :
    (cellEnum NX NY NZ).get? (linIdx NX NY (i, j, k)) = some (i, j, k) := by
  have e : linIdx NX NY (i, j, k) = k * (NY * NX) + (j * NX + i) := by
    simp only [linIdx]
    ring
  have hbound : j * NX + i < NY * NX := by
    have h1 : (j + 1) * NX ≤ NY * NX := Nat.mul_le_mul_right NX hj
    have h2 : j * NX + i < (j + 1) * NX := by
      have : (j + 1) * NX = j * NX + NX := by ring
      omega
    omega
  rw [cellEnum, e,
    get?_flatMap_blocks _ (NY * NX) (fun m => cellEnum_plane_length NX NY m) k _ NZ hk hbound,
    get?_flatMap_blocks _ NX (fun m => by simp) j i NY hj hi,
    List.get?_map, List.get?_range hi]
  rfl

theorem cellEnum_map_lin (NX NY NZ : ℕ) :
    (cellEnum NX NY NZ).map (linIdx NX NY) = List.range (NX * NY * NZ) := by
  rw [cellEnum, List.map_flatMap]
  have row : ∀ k j, (((List.range NX).map fun i => (i, j, k)).map (linIdx NX NY)) =
      (List.range NX).map (fun r => r + (j * NX + (k * (NY * NX) + 0))) := by
    intro k j
    rw [List.map_map]
    apply List.map_congr_left
    intro r _
    simp only [Function.comp, linIdx]
    ring
  have inner : ∀ k, (((List.range NY).flatMap fun j =>
      (List.range NX).map fun i => (i, j, k)).map (linIdx NX NY)) =
        (List.range (NY * NX)).map (fun r => r + (k * (NY * NX) + 0)) := by
    intro k
    rw [List.map_flatMap]
    have hfun : (fun j => (((List.range NX).map fun i => (i, j, k)).map (linIdx NX NY))) =
        (fun j => (List.range NX).map (fun r => r + (j * NX + (k * (NY * NX) + 0)))) :=
      funext (row k)
    rw [hfun, blocks_range NX NY (k * (NY * NX) + 0)]
  have hfun2 : (fun k => (((List.range NY).flatMap fun j =>
      (List.range NX).map fun i => (i, j, k)).map (linIdx NX NY))) =
        (fun k => (List.range (NY * NX)).map (fun r => r + (k * (NY * NX) + 0))) :=
    funext inner
  rw [hfun2, blocks_range (NY * NX) NZ 0]
  have : NZ * (NY * NX) = NX * NY * NZ := by ring
  simp [this]

theorem cellEnum_length (NX NY NZ : ℕ) : (cellEnum NX NY NZ).length = NX * NY * NZ := by
  have := congrArg List.length (cellEnum_map_lin NX NY NZ)
  simpa using this

theorem countP_get?_range {α : Type} (P : Option α → Bool) (l : List α) :
    (List.range l.length).countP (fun n => P (l.get? n)) = l.countP (fun a => P (some a)) := by
  induction l with
  | nil => simp
  | cons a t ih =>
    rw [List.length_cons, List.range_succ_eq_map, List.countP_cons, List.countP_map,
      List.countP_cons]
    have : ((fun n => P ((a :: t).get? n)) ∘ Nat.succ) = fun n => P (t.get? n) := by
      funext n
      simp
    rw [this, ih]
    simp [Nat.add_comm]

/-! ## Vertex-pool lemmas -/

/-- One pool state extends another: the vertex array has only grown at the
end, and every key→index binding persists. -/
def poolExt (p q : VPool) : Prop :=
  (∃ t, q.verts = p.verts ++ t) ∧
  ∀ k n, p.map.lookup k = some n → q.map.lookup k = some n

theorem poolExt_refl (p : VPool) : poolExt p p :=
  ⟨⟨[], by simp⟩, fun _ _ h => h⟩

theorem poolExt_trans {p q r : VPool} (h1 : poolExt p q) (h2 : poolExt q r) :
    poolExt p r := by
  obtain ⟨⟨t1, ht1⟩, hm1⟩ := h1
  obtain ⟨⟨t2, ht2⟩, hm2⟩ := h2
  exact ⟨⟨t1 ++ t2, by rw [ht2, ht1, List.append_assoc]⟩, fun k n h => hm2 k n (hm1 k n h)⟩

theorem addVertex_hit {p : VPool} {v : Point3} {key : FixedKey × FixedKey × FixedKey}
    {n : ℕ} (hk : vkey3 v = .ok key) (hl : p.map.lookup key = some n) :
    addVertex p v = .ok (p, n) := by
  unfold addVertex
  rw [hk]
  dsimp only
  rw [hl]

theorem addVertex_miss {p : VPool} {v : Point3} {key : FixedKey × FixedKey × FixedKey}
    (hk : vkey3 v = .ok key) (hl : p.map.lookup key = none) :
    addVertex p v =
      .ok (VPool.mk (p.verts ++ [v]) ((key, p.nextIdx) :: p.map) (p.nextIdx + 1), p.nextIdx) := by
  unfold addVertex
  rw [hk]
  dsimp only
  rw [hl]

theorem vkey3_undefined {v : Point3} (h : v.2.2 = .undefined) : vkey3 v = .error .typeError := by
  unfold vkey3
  rw [h]

theorem vkey3_num {v : Point3} {z : JSNum} (h : v.2.2 = .num z) :
    vkey3 v = .ok (toFixed6 v.1, toFixed6 v.2.1, toFixed6 z) := by
  unfold vkey3
  rw [h]

theorem addVertex_error_of_undefined {p : VPool} {v : Point3} (h : v.2.2 = .undefined) :
    addVertex p v = .error .typeError := by
  unfold addVertex
  rw [vkey3_undefined h]

theorem addVertex_poolExt {p p' : VPool} {v : Point3} {n : ℕ}
    (h : addVertex p v = .ok (p', n)) : poolExt p p' := by
  cases hz : v.2.2 with
  | undefined => rw [addVertex_error_of_undefined hz] at h; cases h
  | num z =>
    have hk := vkey3_num hz
    cases hl : p.map.lookup (toFixed6 v.1, toFixed6 v.2.1, toFixed6 z) with
    | some idx =>
        rw [addVertex_hit hk hl] at h
        obtain ⟨rfl, rfl⟩ : p = p' ∧ idx = n := by
          simpa [Prod.ext_iff] using h
        exact poolExt_refl p
    | none =>
        rw [addVertex_miss hk hl] at h
        obtain ⟨h1, _⟩ : VPool.mk (p.verts ++ [v]) (((toFixed6 v.1, toFixed6 v.2.1, toFixed6 z),
            p.nextIdx) :: p.map) (p.nextIdx + 1) = p' ∧ p.nextIdx = n := by
          simpa [Prod.ext_iff] using h
        subst h1
        refine ⟨⟨[v], rfl⟩, fun k m hkm => ?_⟩
        have hne : k ≠ (toFixed6 v.1, toFixed6 v.2.1, toFixed6 z) := by
          intro hkk
          rw [hkk, hl] at hkm
          cases hkm
        have hbeq : (k == (toFixed6 v.1, toFixed6 v.2.1, toFixed6 z)) = false :=
          beq_eq_false_iff_ne.mpr hne
        simpa [List.lookup, hbeq] using hkm

theorem addVertex_ok_of_defined {p : VPool} {v : Point3} (h : v.2.2 ≠ .undefined) :
    ∃ p' n, addVertex p v = .ok (p', n) := by
  cases hz : v.2.2 with
  | undefined => exact absurd hz h
  | num z =>
    have hk := vkey3_num hz
    cases hl : p.map.lookup (toFixed6 v.1, toFixed6 v.2.1, toFixed6 z) with
    | some idx => exact ⟨p, idx, addVertex_hit hk hl⟩
    | none => exact ⟨_, _, addVertex_miss hk hl⟩

theorem addVerts_poolExt {l : List Point3} : ∀ {p p' : VPool},
    addVerts p l = .ok p' → poolExt p p' := by
  induction l with
  | nil =>
    intro p p' h
    obtain rfl : p = p' := by simpa [addVerts] using h
    exact poolExt_refl p
  | cons v vs ih =>
    intro p p' h
    unfold addVerts at h
    cases ha : addVertex p v with
    | error e => rw [ha] at h; cases h
    | ok pr =>
      rw [ha] at h
      exact poolExt_trans (addVertex_poolExt ha) (ih h)

theorem addVerts_ok_of_defined {l : List Point3} : ∀ (p : VPool),
    (∀ v ∈ l, v.2.2 ≠ .undefined) → ∃ p', addVerts p l = .ok p' := by
  induction l with
  | nil => exact fun _ _ => ⟨_, rfl⟩
  | cons v vs ih =>
    intro p h
    obtain ⟨p1, n, h1⟩ := addVertex_ok_of_defined (h v (List.mem_cons_self v vs))
    obtain ⟨p', h2⟩ := ih p1 (fun w hw => h w (List.mem_cons_of_mem _ hw))
    refine ⟨p', ?_⟩
    unfold addVerts
    rw [h1]
    dsimp only
    rw [h2]

theorem addVerts_error_of_undefined {l : List Point3} : ∀ {p : VPool},
    (∃ v ∈ l, v.2.2 = .undefined) → addVerts p l = .error .typeError := by
  induction l with
  | nil =>
    intro p h
    obtain ⟨v, hv, _⟩ := h
    cases hv
  | cons v vs ih =>
    intro p h
    by_cases hv : v.2.2 = .undefined
    · unfold addVerts
      rw [addVertex_error_of_undefined hv]
    · obtain ⟨w, hw, hwu⟩ := h
      have hwvs : w ∈ vs := by
        rcases List.mem_cons.mp hw with rfl | hmem
        · exact absurd hwu hv
        · exact hmem
      obtain ⟨p1, n, h1⟩ := addVertex_ok_of_defined hv
      unfold addVerts
      rw [h1]
      exact ih ⟨w, hwvs, hwu⟩

theorem addVerts_ok_no_undefined {l : List Point3} : ∀ {p p' : VPool},
    addVerts p l = .ok p' → ∀ v ∈ l, v.2.2 ≠ .undefined := by
  induction l with
  | nil =>
    intro p p' _ v hv
    cases hv
  | cons w ws ih =>
    intro p p' h v hv
    by_cases hw : w.2.2 = .undefined
    · rw [addVerts, addVertex_error_of_undefined hw] at h
      cases h
    · rcases List.mem_cons.mp hv with rfl | hmem
      · exact hw
      · obtain ⟨p1, n, h1⟩ := addVertex_ok_of_defined hw
        unfold addVerts at h
        rw [h1] at h
        exact ih h v hmem

/-! ## Per-cell lemmas for the reconstruction loop -/

/-- The corner list the loop body stores for a cell: empty when inactive,
otherwise the eight interpolated corners (pillars read with an irrelevant
default, used only when the lookup succeeded). -/
def cellGeom (NX NY : ℕ) (coord : List (List JSVal)) (zcorn : List JSNum)
    (actnum : List JSNum) (c : ℕ × ℕ × ℕ) : List Point3 :=
  if actnum.get? (linIdx NX NY c) = some (JSNum.fin (qofNat 0)) then []
  else
    let off := zcornOffset NX NY c.1 c.2.1 c.2.2
    corners8 ((coord.get? (getPillarIndex NX c.1 c.2.1)).getD [])
      ((coord.get? (getPillarIndex NX (c.1 + 1) c.2.1)).getD [])
      ((coord.get? (getPillarIndex NX (c.1 + 1) (c.2.1 + 1))).getD [])
      ((coord.get? (getPillarIndex NX c.1 (c.2.1 + 1))).getD [])
      (zAt zcorn off) (zAt zcorn (off + 1))
      (zAt zcorn (off + 2 * NX + 1)) (zAt zcorn (off + 2 * NX))
      (zAt zcorn (off + 4 * (NX * NY))) (zAt zcorn (off + 4 * (NX * NY) + 1))
      (zAt zcorn (off + 4 * (NX * NY) + 2 * NX + 1)) (zAt zcorn (off + 4 * (NX * NY) + 2 * NX))

/-- The loop body treats the cell as active (`actnum[cellIdx] === 0` fails:
index out of range, `NaN`, or any value other than exactly 0). -/
def isActiveCell (NX NY : ℕ) (actnum : List JSNum) (c : ℕ × ℕ × ℕ) : Bool :=
  decide (¬ actnum.get? (linIdx NX NY c) = some (JSNum.fin (qofNat 0)))

/-- The loop body raises the untyped runtime error at this cell: the cell is
treated as active and either one of its four pillars is missing from COORD or
one of its eight ZCORN reads is out of range. -/
def cellThrows (NX NY : ℕ) (coord : List (List JSVal)) (zcorn : List JSNum)
    (actnum : List JSNum) (c : ℕ × ℕ × ℕ) : Prop :=
  ¬ actnum.get? (linIdx NX NY c) = some (JSNum.fin (qofNat 0)) ∧
  (coord.get? (getPillarIndex NX c.1 c.2.1) = none ∨
   coord.get? (getPillarIndex NX (c.1 + 1) c.2.1) = none ∨
   coord.get? (getPillarIndex NX (c.1 + 1) (c.2.1 + 1)) = none ∨
   coord.get? (getPillarIndex NX c.1 (c.2.1 + 1)) = none ∨
   zAt zcorn (zcornOffset NX NY c.1 c.2.1 c.2.2) = .undefined ∨
   zAt zcorn (zcornOffset NX NY c.1 c.2.1 c.2.2 + 1) = .undefined ∨
   zAt zcorn (zcornOffset NX NY c.1 c.2.1 c.2.2 + 2 * NX + 1) = .undefined ∨
   zAt zcorn (zcornOffset NX NY c.1 c.2.1 c.2.2 + 2 * NX) = .undefined ∨
   zAt zcorn (zcornOffset NX NY c.1 c.2.1 c.2.2 + 4 * (NX * NY)) = .undefined ∨
   zAt zcorn (zcornOffset NX NY c.1 c.2.1 c.2.2 + 4 * (NX * NY) + 1) = .undefined ∨
   zAt zcorn (zcornOffset NX NY c.1 c.2.1 c.2.2 + 4 * (NX * NY) + 2 * NX + 1) = .undefined ∨
   zAt zcorn (zcornOffset NX NY c.1 c.2.1 c.2.2 + 4 * (NX * NY) + 2 * NX) = .undefined)

theorem interpolatePillar_z (p : List JSVal) (z : JSVal) :
    (interpolatePillar p z).2.2 = z := rfl

theorem corners8_undefined_iff {p00 p10 p11 p01 : List JSVal}
    {z0 z1 z2 z3 z4 z5 z6 z7 : JSVal} :
    (∃ v ∈ corners8 p00 p10 p11 p01 z0 z1 z2 z3 z4 z5 z6 z7, v.2.2 = .undefined) ↔
      (z0 = .undefined ∨ z1 = .undefined ∨ z2 = .undefined ∨ z3 = .undefined ∨
       z4 = .undefined ∨ z5 = .undefined ∨ z6 = .undefined ∨ z7 = .undefined) := by
  simp [corners8, interpolatePillar]

theorem isActiveCell_false {NX NY : ℕ} {actnum : List JSNum} {c : ℕ × ℕ × ℕ}
    (hact : actnum.get? (linIdx NX NY c) = some (JSNum.fin (qofNat 0))) :
    isActiveCell NX NY actnum c = false := by
  simp only [isActiveCell, hact]
  decide

theorem isActiveCell_true {NX NY : ℕ} {actnum : List JSNum} {c : ℕ × ℕ × ℕ}
    (hact : ¬ actnum.get? (linIdx NX NY c) = some (JSNum.fin (qofNat 0))) :
    isActiveCell NX NY actnum c = true := by
  simp only [isActiveCell]
  exact decide_eq_true hact

theorem processCell_ok_inv {NX NY : ℕ} {coord : List (List JSVal)} {zcorn : List JSNum}
    {actnum : List JSNum} {st st' : GenState} {c : ℕ × ℕ × ℕ}
    (h : processCell NX NY coord zcorn actnum st c = .ok st') :
    st'.cellVertices = st.cellVertices ++ [cellGeom NX NY coord zcorn actnum c] ∧
    st'.activeCellCount = st.activeCellCount +
      (if isActiveCell NX NY actnum c then 1 else 0) := by
  simp only [processCell] at h
  by_cases hact : actnum.get? (linIdx NX NY c) = some (JSNum.fin (qofNat 0))
  · have hact' := hact
    simp only [linIdx] at hact'
    rw [if_pos hact'] at h
    obtain rfl : ({ st with cellVertices := st.cellVertices ++ [[]] } : GenState) = st' := by
      simpa using h
    refine ⟨?_, ?_⟩
    · simp only [cellGeom, if_pos hact]
    · rw [isActiveCell_false hact]
      simp
  · have hact' := hact
    simp only [linIdx] at hact'
    rw [if_neg hact'] at h
    cases h00 : coord.get? (getPillarIndex NX c.1 c.2.1) with
    | none => rw [h00] at h; simp at h
    | some p00 =>
    cases h10 : coord.get? (getPillarIndex NX (c.1 + 1) c.2.1) with
    | none => rw [h00, h10] at h; simp at h
    | some p10 =>
    cases h11 : coord.get? (getPillarIndex NX (c.1 + 1) (c.2.1 + 1)) with
    | none => rw [h00, h10, h11] at h; simp at h
    | some p11 =>
    cases h01 : coord.get? (getPillarIndex NX c.1 (c.2.1 + 1)) with
    | none => rw [h00, h10, h11, h01] at h; simp at h
    | some p01 =>
    rw [h00, h10, h11, h01] at h
    dsimp only at h
    cases hAV : addVerts st.pool (corners8 p00 p10 p11 p01
        (zAt zcorn (zcornOffset NX NY c.1 c.2.1 c.2.2))
        (zAt zcorn (zcornOffset NX NY c.1 c.2.1 c.2.2 + 1))
        (zAt zcorn (zcornOffset NX NY c.1 c.2.1 c.2.2 + 2 * NX + 1))
        (zAt zcorn (zcornOffset NX NY c.1 c.2.1 c.2.2 + 2 * NX))
        (zAt zcorn (zcornOffset NX NY c.1 c.2.1 c.2.2 + 4 * (NX * NY)))
        (zAt zcorn (zcornOffset NX NY c.1 c.2.1 c.2.2 + 4 * (NX * NY) + 1))
        (zAt zcorn (zcornOffset NX NY c.1 c.2.1 c.2.2 + 4 * (NX * NY) + 2 * NX + 1))
        (zAt zcorn (zcornOffset NX NY c.1 c.2.1 c.2.2 + 4 * (NX * NY) + 2 * NX))) with
    | error e => rw [hAV] at h; simp at h
    | ok pool' =>
      rw [hAV] at h
      simp only [Except.ok.injEq] at h
      subst h
      refine ⟨?_, ?_⟩
      · simp only [cellGeom, if_neg hact, h00, h10, h11, h01, Option.getD_some]
      · rw [isActiveCell_true hact]
        simp

theorem processCell_ok_of_not_throws {NX NY : ℕ} {coord : List (List JSVal)}
    {zcorn : List JSNum} {actnum : List JSNum} (st : GenState) {c : ℕ × ℕ × ℕ}
    (h : ¬ cellThrows NX NY coord zcorn actnum c) :
    ∃ st', processCell NX NY coord zcorn actnum st c = .ok st' := by
  simp only [processCell]
  by_cases hact : actnum.get? (linIdx NX NY c) = some (JSNum.fin (qofNat 0))
  · have hact' := hact
    simp only [linIdx] at hact'
    rw [if_pos hact']
    exact ⟨_, rfl⟩
  · have hnd : ¬ (coord.get? (getPillarIndex NX c.1 c.2.1) = none ∨
        coord.get? (getPillarIndex NX (c.1 + 1) c.2.1) = none ∨
        coord.get? (getPillarIndex NX (c.1 + 1) (c.2.1 + 1)) = none ∨
        coord.get? (getPillarIndex NX c.1 (c.2.1 + 1)) = none ∨
        zAt zcorn (zcornOffset NX NY c.1 c.2.1 c.2.2) = .undefined ∨
        zAt zcorn (zcornOffset NX NY c.1 c.2.1 c.2.2 + 1) = .undefined ∨
        zAt zcorn (zcornOffset NX NY c.1 c.2.1 c.2.2 + 2 * NX + 1) = .undefined ∨
        zAt zcorn (zcornOffset NX NY c.1 c.2.1 c.2.2 + 2 * NX) = .undefined ∨
        zAt zcorn (zcornOffset NX NY c.1 c.2.1 c.2.2 + 4 * (NX * NY)) = .undefined ∨
        zAt zcorn (zcornOffset NX NY c.1 c.2.1 c.2.2 + 4 * (NX * NY) + 1) = .undefined ∨
        zAt zcorn (zcornOffset NX NY c.1 c.2.1 c.2.2 + 4 * (NX * NY) + 2 * NX + 1) = .undefined ∨
        zAt zcorn (zcornOffset NX NY c.1 c.2.1 c.2.2 + 4 * (NX * NY) + 2 * NX) = .undefined) :=
      fun hd => h ⟨hact, hd⟩
    push_neg at hnd
    obtain ⟨hc00, hc10, hc11, hc01, hz0, hz1, hz2, hz3, hz4, hz5, hz6, hz7⟩ := hnd
    have hact' := hact
    simp only [linIdx] at hact'
    rw [if_neg hact']
    obtain ⟨p00, h00⟩ := Option.ne_none_iff_exists'.mp hc00
    obtain ⟨p10, h10⟩ := Option.ne_none_iff_exists'.mp hc10
    obtain ⟨p11, h11⟩ := Option.ne_none_iff_exists'.mp hc11
    obtain ⟨p01, h01⟩ := Option.ne_none_iff_exists'.mp hc01
    rw [h00, h10, h11, h01]
    dsimp only
    have hdef : ∀ v ∈ corners8 p00 p10 p11 p01
        (zAt zcorn (zcornOffset NX NY c.1 c.2.1 c.2.2))
        (zAt zcorn (zcornOffset NX NY c.1 c.2.1 c.2.2 + 1))
        (zAt zcorn (zcornOffset NX NY c.1 c.2.1 c.2.2 + 2 * NX + 1))
        (zAt zcorn (zcornOffset NX NY c.1 c.2.1 c.2.2 + 2 * NX))
        (zAt zcorn (zcornOffset NX NY c.1 c.2.1 c.2.2 + 4 * (NX * NY)))
        (zAt zcorn (zcornOffset NX NY c.1 c.2.1 c.2.2 + 4 * (NX * NY) + 1))
        (zAt zcorn (zcornOffset NX NY c.1 c.2.1 c.2.2 + 4 * (NX * NY) + 2 * NX + 1))
        (zAt zcorn (zcornOffset NX NY c.1 c.2.1 c.2.2 + 4 * (NX * NY) + 2 * NX)),
        v.2.2 ≠ .undefined := by
      intro v hv hvu
      have : _ := corners8_undefined_iff.mp ⟨v, hv, hvu⟩
      tauto
    obtain ⟨pool', hAV⟩ := addVerts_ok_of_defined st.pool hdef
    rw [hAV]
    exact ⟨_, rfl⟩

theorem processCell_error_of_throws {NX NY : ℕ} {coord : List (List JSVal)}
    {zcorn : List JSNum} {actnum : List JSNum} (st : GenState) {c : ℕ × ℕ × ℕ}
    (h : cellThrows NX NY coord zcorn actnum c) :
    processCell NX NY coord zcorn actnum st c = .error .typeError := by
  obtain ⟨hact, hd⟩ := h
  simp only [processCell]
  have hact' := hact
  simp only [linIdx] at hact'
  rw [if_neg hact']
  cases h00 : coord.get? (getPillarIndex NX c.1 c.2.1) with
  | none => rfl
  | some p00 =>
  cases h10 : coord.get? (getPillarIndex NX (c.1 + 1) c.2.1) with
  | none => rfl
  | some p10 =>
  cases h11 : coord.get? (getPillarIndex NX (c.1 + 1) (c.2.1 + 1)) with
  | none => rfl
  | some p11 =>
  cases h01 : coord.get? (getPillarIndex NX c.1 (c.2.1 + 1)) with
  | none => rfl
  | some p01 =>
  dsimp only
  have hund : ∃ z, (zAt zcorn (zcornOffset NX NY c.1 c.2.1 c.2.2) = .undefined ∨
      zAt zcorn (zcornOffset NX NY c.1 c.2.1 c.2.2 + 1) = .undefined ∨
      zAt zcorn (zcornOffset NX NY c.1 c.2.1 c.2.2 + 2 * NX + 1) = .undefined ∨
      zAt zcorn (zcornOffset NX NY c.1 c.2.1 c.2.2 + 2 * NX) = .undefined ∨
      zAt zcorn (zcornOffset NX NY c.1 c.2.1 c.2.2 + 4 * (NX * NY)) = .undefined ∨
      zAt zcorn (zcornOffset NX NY c.1 c.2.1 c.2.2 + 4 * (NX * NY) + 1) = .undefined ∨
      zAt zcorn (zcornOffset NX NY c.1 c.2.1 c.2.2 + 4 * (NX * NY) + 2 * NX + 1) = .undefined ∨
      zAt zcorn (zcornOffset NX NY c.1 c.2.1 c.2.2 + 4 * (NX * NY) + 2 * NX) = .undefined) ∧
      z = 0 := by
    rcases hd with hd | hd | hd | hd | hd
    · rw [h00] at hd; cases hd
    · rw [h10] at hd; cases hd
    · rw [h11] at hd; cases hd
    · rw [h01] at hd; cases hd
    · exact ⟨0, hd, rfl⟩
  obtain ⟨_, hzs, _⟩ := hund
  have : ∃ v ∈ corners8 p00 p10 p11 p01
      (zAt zcorn (zcornOffset NX NY c.1 c.2.1 c.2.2))
      (zAt zcorn (zcornOffset NX NY c.1 c.2.1 c.2.2 + 1))
      (zAt zcorn (zcornOffset NX NY c.1 c.2.1 c.2.2 + 2 * NX + 1))
      (zAt zcorn (zcornOffset NX NY c.1 c.2.1 c.2.2 + 2 * NX))
      (zAt zcorn (zcornOffset NX NY c.1 c.2.1 c.2.2 + 4 * (NX * NY)))
      (zAt zcorn (zcornOffset NX NY c.1 c.2.1 c.2.2 + 4 * (NX * NY) + 1))
      (zAt zcorn (zcornOffset NX NY c.1 c.2.1 c.2.2 + 4 * (NX * NY) + 2 * NX + 1))
      (zAt zcorn (zcornOffset NX NY c.1 c.2.1 c.2.2 + 4 * (NX * NY) + 2 * NX)),
      v.2.2 = .undefined := corners8_undefined_iff.mpr hzs
  rw [addVerts_error_of_undefined this]

theorem foldCells_ok_inv {NX NY : ℕ} {coord : List (List JSVal)} {zcorn : List JSNum}
    {actnum : List JSNum} {L : List (ℕ × ℕ × ℕ)} : ∀ {st st' : GenState},
    foldCells NX NY coord zcorn actnum st L = .ok st' →
    st'.cellVertices = st.cellVertices ++ L.map (cellGeom NX NY coord zcorn actnum) ∧
    st'.activeCellCount = st.activeCellCount + L.countP (isActiveCell NX NY actnum) := by
  induction L with
  | nil =>
    intro st st' h
    obtain rfl : st = st' := by simpa [foldCells] using h
    simp
  | cons c cs ih =>
    intro st st' h
    unfold foldCells at h
    cases hp : processCell NX NY coord zcorn actnum st c with
    | error e => rw [hp] at h; cases h
    | ok st1 =>
      rw [hp] at h
      obtain ⟨hcv1, hac1⟩ := processCell_ok_inv hp
      obtain ⟨hcv2, hac2⟩ := ih h
      constructor
      · rw [hcv2, hcv1, List.map_cons, List.append_assoc]
        rfl
      · rw [hac2, hac1, List.countP_cons]
        omega

theorem foldCells_ok_of_not_throws {NX NY : ℕ} {coord : List (List JSVal)}
    {zcorn : List JSNum} {actnum : List JSNum} {L : List (ℕ × ℕ × ℕ)} :
    ∀ (st : GenState), (∀ c ∈ L, ¬ cellThrows NX NY coord zcorn actnum c) →
    ∃ st', foldCells NX NY coord zcorn actnum st L = .ok st' := by
  induction L with
  | nil => exact fun st _ => ⟨st, rfl⟩
  | cons c cs ih =>
    intro st h
    obtain ⟨st1, h1⟩ := processCell_ok_of_not_throws st (h c (List.mem_cons_self c cs))
    obtain ⟨st', h2⟩ := ih st1 (fun w hw => h w (List.mem_cons_of_mem _ hw))
    refine ⟨st', ?_⟩
    unfold foldCells
    rw [h1]
    exact h2

theorem foldCells_error_of_throws {NX NY : ℕ} {coord : List (List JSVal)}
    {zcorn : List JSNum} {actnum : List JSNum} {L : List (ℕ × ℕ × ℕ)} :
    ∀ (st : GenState), (∃ c ∈ L, cellThrows NX NY coord zcorn actnum c) →
    foldCells NX NY coord zcorn actnum st L = .error .typeError := by
  induction L with
  | nil =>
    intro st h
    obtain ⟨c, hc, _⟩ := h
    cases hc
  | cons c cs ih =>
    intro st h
    by_cases hcth : cellThrows NX NY coord zcorn actnum c
    · unfold foldCells
      rw [processCell_error_of_throws st hcth]
    · obtain ⟨w, hw, hwth⟩ := h
      have hwcs : w ∈ cs := by
        rcases List.mem_cons.mp hw with rfl | hmem
        · exact absurd hwth hcth
        · exact hmem
      obtain ⟨st1, h1⟩ := processCell_ok_of_not_throws st hcth
      unfold foldCells
      rw [h1]
      exact ih st1 ⟨w, hwcs, hwth⟩

/-! ## Index-bound lemmas -/

theorem getPillarIndex_lt {NX NY i j : ℕ} (hi : i ≤ NX) (hj : j ≤ NY) :
    getPillarIndex NX i j < (NX + 1) * (NY + 1) := by
  unfold getPillarIndex
  have h1 : j * (NX + 1) ≤ NY * (NX + 1) := Nat.mul_le_mul_right _ hj
  have h2 : (NX + 1) * (NY + 1) = NY * (NX + 1) + (NX + 1) := by ring
  omega

theorem zcornOffset_bound {NX NY NZ i j k : ℕ} (hi : i < NX) (hj : j < NY) (hk : k < NZ) :
    zcornOffset NX NY i j k + 4 * (NX * NY) + 2 * NX + 1 < 8 * (NX * NY * NZ) := by
  unfold zcornOffset
  have ha : 2 * (i + j * (2 * NX) + k * (2 * NX * (2 * NY))) =
      2 * i + 4 * (NX * j) + 8 * (NX * NY * k) := by ring
  have hb : NX * j + NX ≤ NX * NY := by
    have h := Nat.mul_le_mul_left NX hj
    calc NX * j + NX = NX * (j + 1) := by ring
      _ ≤ NX * NY := Nat.mul_le_mul_left NX hj
  have hc : NX * NY * k + NX * NY ≤ NX * NY * NZ := by
    calc NX * NY * k + NX * NY = NX * NY * (k + 1) := by ring
      _ ≤ NX * NY * NZ := Nat.mul_le_mul_left (NX * NY) hk
  omega

theorem zAt_ne_undefined {zcorn : List JSNum} {n : ℕ} (h : n < zcorn.length) :
    zAt zcorn n ≠ .undefined := by
  unfold zAt
  cases hg : zcorn.get? n with
  | none =>
    rw [List.get?_eq_none] at hg
    omega
  | some v => simp

theorem coord_get?_ne_none {coord : List (List JSVal)} {n : ℕ} (h : n < coord.length) :
    coord.get? n ≠ none := by
  intro hn
  rw [List.get?_eq_none] at hn
  omega

/-- With a full COORD and ZCORN, no cell of the loop raises. -/
theorem not_cellThrows_of_complete {NX NY NZ : ℕ} {coord : List (List JSVal)}
    {zcorn : List JSNum} {actnum : List JSNum}
    (hcoord : (NX + 1) * (NY + 1) ≤ coord.length)
    (hzcorn : 8 * (NX * NY * NZ) ≤ zcorn.length) :
    ∀ c ∈ cellEnum NX NY NZ, ¬ cellThrows NX NY coord zcorn actnum c := by
  intro c hc
  obtain ⟨hi, hj, hk⟩ := cellEnum_mem.mp hc
  intro hth
  obtain ⟨_, hd⟩ := hth
  have hzb := zcornOffset_bound hi hj hk
  have hzlt : ∀ m, m ≤ zcornOffset NX NY c.1 c.2.1 c.2.2 + 4 * (NX * NY) + 2 * NX + 1 →
      m < zcorn.length := by
    intro m hm
    omega
  have hp00 := coord_get?_ne_none (Nat.lt_of_lt_of_le
    (getPillarIndex_lt (Nat.le_of_lt hi) (Nat.le_of_lt hj)) hcoord)
  have hp10 := coord_get?_ne_none (Nat.lt_of_lt_of_le
    (getPillarIndex_lt hi (Nat.le_of_lt hj)) hcoord)
  have hp11 := coord_get?_ne_none (Nat.lt_of_lt_of_le
    (getPillarIndex_lt hi hj) hcoord)
  have hp01 := coord_get?_ne_none (Nat.lt_of_lt_of_le
    (getPillarIndex_lt (Nat.le_of_lt hi) hj) hcoord)
  rcases hd with hd | hd | hd | hd | hd | hd | hd | hd | hd | hd | hd | hd
  · exact hp00 hd
  · exact hp10 hd
  · exact hp11 hd
  · exact hp01 hd
  · exact zAt_ne_undefined (hzlt _ (by omega)) hd
  · exact zAt_ne_undefined (hzlt _ (by omega)) hd
  · exact zAt_ne_undefined (hzlt _ (by omega)) hd
  · exact zAt_ne_undefined (hzlt _ (by omega)) hd
  · exact zAt_ne_undefined (hzlt _ (by omega)) hd
  · exact zAt_ne_undefined (hzlt _ (by omega)) hd
  · exact zAt_ne_undefined (hzlt _ (by omega)) hd
  · exact zAt_ne_undefined (hzlt _ (by omega)) hd

/-- Structure of a successful reconstruction: one stored corner list per cell
in loop order, and the count of cells not skipped. -/
theorem generateCellVertices_ok_inv {sg : Specgrid} {coord : List (List JSVal)}
    {zcorn : List JSNum} {actnum : List JSNum} {r : CellsResult}
    (h : generateCellVertices sg coord zcorn actnum = .ok r) :
    r.cellVertices = (cellEnum sg.nx.toLoopBound sg.ny.toLoopBound sg.nz.toLoopBound).map
      (cellGeom sg.nx.toLoopBound sg.ny.toLoopBound coord zcorn actnum) ∧
    r.num = (cellEnum sg.nx.toLoopBound sg.ny.toLoopBound sg.nz.toLoopBound).countP
      (isActiveCell sg.nx.toLoopBound sg.ny.toLoopBound actnum) := by
  simp only [generateCellVertices] at h
  cases hf : foldCells sg.nx.toLoopBound sg.ny.toLoopBound coord zcorn actnum GenState.init
      (cellEnum sg.nx.toLoopBound sg.ny.toLoopBound sg.nz.toLoopBound) with
  | error e => rw [hf] at h; cases h
  | ok st =>
    rw [hf] at h
    obtain rfl : (⟨st.activeCellCount, st.pool.verts, st.cellVertices⟩ : CellsResult) = r := by
      simpa using h
    obtain ⟨h1, h2⟩ := foldCells_ok_inv hf
    simp only [GenState.init] at h1 h2
    constructor
    · simpa using h1
    · simpa using h2

/-- A successful reconstruction exists whenever COORD and ZCORN are complete
for the declared dimensions. -/
theorem generateCellVertices_ok_of_complete {sg : Specgrid} {coord : List (List JSVal)}
    {zcorn : List JSNum} {actnum : List JSNum}
    (hcoord : (sg.nx.toLoopBound + 1) * (sg.ny.toLoopBound + 1) ≤ coord.length)
    (hzcorn : 8 * (sg.nx.toLoopBound * sg.ny.toLoopBound * sg.nz.toLoopBound) ≤ zcorn.length) :
    ∃ r, generateCellVertices sg coord zcorn actnum = .ok r := by
  obtain ⟨st', hst'⟩ := @foldCells_ok_of_not_throws _ _ coord zcorn actnum _ GenState.init
    (not_cellThrows_of_complete hcoord hzcorn)
  refine ⟨⟨st'.activeCellCount, st'.pool.verts, st'.cellVertices⟩, ?_⟩
  simp only [generateCellVertices]
  rw [hst']

/-- The reconstruction raises the untyped error whenever some visited cell
throws. -/
theorem generateCellVertices_error_of_throws {sg : Specgrid} {coord : List (List JSVal)}
    {zcorn : List JSNum} {actnum : List JSNum}
    (h : ∃ c ∈ cellEnum sg.nx.toLoopBound sg.ny.toLoopBound sg.nz.toLoopBound,
      cellThrows sg.nx.toLoopBound sg.ny.toLoopBound coord zcorn actnum c) :
    generateCellVertices sg coord zcorn actnum = .error .typeError := by
  simp only [generateCellVertices]
  rw [foldCells_error_of_throws GenState.init h]

/-! ## Structure of `parseGrdecl` results -/

theorem parseGrdecl_ok_inv {t : String} {d : GrdeclData} (h : parseGrdecl t = .ok d) :
    d.specgrid = ((linesOf t).foldl processLine PState.init).specgrid ∧
    d.coord = ((linesOf t).foldl processLine PState.init).coord ∧
    d.zcorn = ((linesOf t).foldl processLine PState.init).zcorn ∧
    d.actnum = ((linesOf t).foldl processLine PState.init).actnum ∧
    generateCellVertices d.specgrid d.coord d.zcorn d.actnum = .ok d.cells := by
  simp only [parseGrdecl] at h
  cases hg : generateCellVertices ((linesOf t).foldl processLine PState.init).specgrid
      ((linesOf t).foldl processLine PState.init).coord
      ((linesOf t).foldl processLine PState.init).zcorn
      ((linesOf t).foldl processLine PState.init).actnum with
  | error e => rw [hg] at h; cases h
  | ok cells =>
    rw [hg] at h
    obtain rfl : (⟨((linesOf t).foldl processLine PState.init).specgrid,
        ((linesOf t).foldl processLine PState.init).coord,
        ((linesOf t).foldl processLine PState.init).zcorn,
        ((linesOf t).foldl processLine PState.init).actnum, cells⟩ : GrdeclData) = d := by
      simpa using h
    exact ⟨rfl, rfl, rfl, rfl, hg⟩

theorem closeSection_actnum (st : PState) (h : st.currentSection ≠ "ACTNUM") :
    (closeSection st).actnum = st.actnum := by
  unfold closeSection
  split_ifs <;> first | rfl | exact absurd (by assumption) h

theorem processLine_no_actnum {st : PState} {line : List Char}
    (hline : startsWithChars "ACTNUM".toList line = false)
    (hsec : st.currentSection ≠ "ACTNUM") (hact : st.actnum = []) :
    (processLine st line).currentSection ≠ "ACTNUM" ∧ (processLine st line).actnum = [] := by
  unfold processLine
  by_cases h1 : startsWithChars "SPECGRID".toList line = true
  · rw [if_pos h1]
    exact ⟨by simp, hact⟩
  · rw [if_neg h1]
    by_cases h2 : startsWithChars "COORD".toList line = true
    · rw [if_pos h2]
      exact ⟨by simp, hact⟩
    · rw [if_neg h2]
      by_cases h3 : startsWithChars "ZCORN".toList line = true
      · rw [if_pos h3]
        exact ⟨by simp, hact⟩
      · rw [if_neg h3]
        rw [if_neg (by rw [hline]; exact Bool.false_ne_true)]
        by_cases h5 : line = ['/'] ∨ endsWithChars ['/'] line = true
        · rw [if_pos h5]
          refine ⟨by simp, ?_⟩
          by_cases h6 : line.length > 1 ∧ st.currentSection ≠ ""
          · rw [if_pos h6]
            by_cases h7 : (trimChars line.dropLast).length > 0
            · rw [if_pos h7]
              rw [closeSection_actnum { st with
                  sectionData := st.sectionData ++ [trimChars line.dropLast] } hsec]
              exact hact
            · rw [if_neg h7]
              rw [closeSection_actnum _ hsec]
              exact hact
          · rw [if_neg h6]
            rw [closeSection_actnum _ hsec]
            exact hact
        · rw [if_neg h5]
          by_cases h8 : st.currentSection ≠ "" ∧ line.length > 0
          · rw [if_pos h8]
            exact ⟨hsec, hact⟩
          · rw [if_neg h8]
            exact ⟨hsec, hact⟩

theorem foldl_processLine_no_actnum {lines : List (List Char)}
    (h : ∀ l ∈ lines, startsWithChars "ACTNUM".toList l = false) :
    ∀ {st : PState}, st.currentSection ≠ "ACTNUM" → st.actnum = [] →
    (lines.foldl processLine st).actnum = [] := by
  induction lines with
  | nil => intro st _ hact; exact hact
  | cons l ls ih =>
    intro st hsec hact
    obtain ⟨h1, h2⟩ := processLine_no_actnum (h l (List.mem_cons_self l ls)) hsec hact
    exact ih (fun w hw => h w (List.mem_cons_of_mem _ hw)) h1 h2

/-! ## Counting lemmas -/

/-- Number of nonzero entries of an expanded ACTNUM array. -/
def countNonzero (l : List JSNum) : ℕ :=
  l.countP (fun a => decide (¬ a = JSNum.fin (qofNat 0)))

theorem countP_isActive_eq {NX NY NZ : ℕ} {actnum : List JSNum}
    (hlen : actnum.length = NX * NY * NZ) :
    (cellEnum NX NY NZ).countP (isActiveCell NX NY actnum) = countNonzero actnum := by
  have h1 : (cellEnum NX NY NZ).countP (isActiveCell NX NY actnum) =
      ((cellEnum NX NY NZ).map (linIdx NX NY)).countP
        (fun n => decide (¬ actnum.get? n = some (JSNum.fin (qofNat 0)))) := by
    rw [List.countP_map]
    rfl
  rw [h1, cellEnum_map_lin, ← hlen,
    countP_get?_range (fun o => decide (¬ o = some (JSNum.fin (qofNat 0)))) actnum]
  unfold countNonzero
  apply List.countP_congr
  intro a _
  simp

theorem countP_isActive_empty {NX NY NZ : ℕ} :
    (cellEnum NX NY NZ).countP (isActiveCell NX NY ([] : List JSNum)) = NX * NY * NZ := by
  have h : ∀ c ∈ cellEnum NX NY NZ, isActiveCell NX NY ([] : List JSNum) c = true := by
    intro c _
    simp [isActiveCell]
  calc (cellEnum NX NY NZ).countP (isActiveCell NX NY ([] : List JSNum))
      = (cellEnum NX NY NZ).length := List.countP_eq_length.mpr h
    _ = NX * NY * NZ := cellEnum_length NX NY NZ

/-! ## ACTNUM expansion as a flat map -/

theorem foldl_append_expand (l : List (List Char)) (acc : List JSNum) :
    l.foldl (fun acc token => acc ++ expandToken token) acc = acc ++ l.flatMap expandToken := by
  induction l generalizing acc with
  | nil => simp
  | cons t ts ih =>
    rw [List.foldl_cons, ih, List.flatMap_cons, List.append_assoc]

/-! ## Degenerate-pillar helpers -/

theorem qmk_num_zero (d : ℕ) (hd : d ≠ 0) : (qmk 0 d hd).num = 0 := by
  unfold qmk
  simp

theorem qsub_self_num (q : ℚ) : (qsub q q).num = 0 := by
  unfold qsub
  simp only [sub_self]
  exact qmk_num_zero _ _

theorem div_den_zero_nonfinite {a : JSNum} {b : ℚ} (hb : b.num = 0) :
    (a.div (JSNum.fin b)).isFinite = false := by
  cases a with
  | nan => rfl
  | inf s => rfl
  | fin q =>
    simp only [JSNum.div, if_pos hb]
    split <;> rfl

theorem add_mul_nonfinite {t : JSNum} (ht : t.isFinite = false) (x d : JSNum) :
    (x.add (t.mul d)).isFinite = false := by
  cases t with
  | fin q => simp [JSNum.isFinite] at ht
  | nan => cases x <;> cases d <;> rfl
  | inf s =>
    cases d with
    | nan => cases x <;> rfl
    | fin b =>
      by_cases hb : b.num = 0
      · simp only [JSNum.mul, if_pos hb]
        cases x <;> rfl
      · simp only [JSNum.mul, if_neg hb]
        cases x with
        | fin a => rfl
        | nan => rfl
        | inf v =>
          simp only [JSNum.add]
          split <;> rfl
    | inf u =>
      simp only [JSNum.mul]
      cases x with
      | fin a => rfl
      | nan => rfl
      | inf v =>
        simp only [JSNum.add]
        split <;> rfl

/-! ## Concrete inputs used by the claims -/

/-- A 1×1×1 unit-cube GRDECL file. -/
def unitCubeText : String :=
  "SPECGRID\n1 1 1 /\nCOORD\n0 0 0 0 0 1\n1 0 0 1 0 1\n0 1 0 0 1 1\n1 1 0 1 1 1\n/\n" ++
  "ZCORN\n0 0 0 0 1 1 1 1 /\nACTNUM\n1 /\n"

/-- The 2×2×2 box at the generator's fixed spacing (10 × 10 × 1), without an
ACTNUM section. -/
def noActnumText : String :=
  "SPECGRID\n2 2 2 1 F /\nCOORD\n" ++
  "0 0 0 0 0 2\n10 0 0 10 0 2\n20 0 0 20 0 2\n" ++
  "0 10 0 0 10 2\n10 10 0 10 10 2\n20 10 0 20 10 2\n" ++
  "0 20 0 0 20 2\n10 20 0 10 20 2\n20 20 0 20 20 2\n" ++
  "/\nZCORN\n" ++
  "0 0 0 0 0 0 0 0 0 0 0 0 0 0 0 0\n" ++
  "1 1 1 1 1 1 1 1 1 1 1 1 1 1 1 1\n" ++
  "1 1 1 1 1 1 1 1 1 1 1 1 1 1 1 1\n" ++
  "2 2 2 2 2 2 2 2 2 2 2 2 2 2 2 2\n/\n"

/-- The same box with a run-length-encoded all-active ACTNUM. -/
def boxText10 : String := noActnumText ++ "ACTNUM\n8*1 /\n"

/-- A hand-built 2×2×2 box with unit spacing (the scenario the claim
describes, which the generator cannot produce). -/
def unitBoxText : String :=
  "SPECGRID\n2 2 2 1 F /\nCOORD\n" ++
  "0 0 0 0 0 2\n1 0 0 1 0 2\n2 0 0 2 0 2\n" ++
  "0 1 0 0 1 2\n1 1 0 1 1 2\n2 1 0 2 1 2\n" ++
  "0 2 0 0 2 2\n1 2 0 1 2 2\n2 2 0 2 2 2\n" ++
  "/\nZCORN\n" ++
  "0 0 0 0 0 0 0 0 0 0 0 0 0 0 0 0\n" ++
  "1 1 1 1 1 1 1 1 1 1 1 1 1 1 1 1\n" ++
  "1 1 1 1 1 1 1 1 1 1 1 1 1 1 1 1\n" ++
  "2 2 2 2 2 2 2 2 2 2 2 2 2 2 2 2\n/\nACTNUM\n8*1 /\n"

/-- A 1×1×1 grid all of whose pillars are degenerate (top and bottom at the
same depth z = 5). -/
def degenText : String :=
  "SPECGRID\n1 1 1 /\nCOORD\n0 0 5 0 0 5\n1 0 5 1 0 5\n0 1 5 0 1 5\n1 1 5 1 1 5\n/\n" ++
  "ZCORN\n5 5 5 5 5 5 5 5 /\nACTNUM\n1 /\n"

/-- The malformed SPECGRID input of the claim (nz missing). -/
def specgridBadText : String := "SPECGRID\n2 2 F /"

/-- All corner points the 2×2×2 generator emits, in the parser's corner
representation. -/
def genCorners222 : List Point3 :=
  ((createCartesianGRDECL 2 2 2).cellVertices.flatten).map toP3

/-- Pillars of a 2×1×1 grid (all six present). -/
def coordC7 : List (List JSVal) :=
  [[.num (.fin (qofNat 0)), .num (.fin (qofNat 0)), .num (.fin (qofNat 0)),
    .num (.fin (qofNat 0)), .num (.fin (qofNat 0)), .num (.fin (qofNat 1))],
   [.num (.fin (qofNat 10)), .num (.fin (qofNat 0)), .num (.fin (qofNat 0)),
    .num (.fin (qofNat 10)), .num (.fin (qofNat 0)), .num (.fin (qofNat 1))],
   [.num (.fin (qofNat 20)), .num (.fin (qofNat 0)), .num (.fin (qofNat 0)),
    .num (.fin (qofNat 20)), .num (.fin (qofNat 0)), .num (.fin (qofNat 1))],
   [.num (.fin (qofNat 0)), .num (.fin (qofNat 10)), .num (.fin (qofNat 0)),
    .num (.fin (qofNat 0)), .num (.fin (qofNat 10)), .num (.fin (qofNat 1))],
   [.num (.fin (qofNat 10)), .num (.fin (qofNat 10)), .num (.fin (qofNat 0)),
    .num (.fin (qofNat 10)), .num (.fin (qofNat 10)), .num (.fin (qofNat 1))],
   [.num (.fin (qofNat 20)), .num (.fin (qofNat 10)), .num (.fin (qofNat 0)),
    .num (.fin (qofNat 20)), .num (.fin (qofNat 10)), .num (.fin (qofNat 1))]]

/-- A ZCORN array with only 14 of the 16 entries a 2×1×1 grid needs: cell
(0,0,0) reads indices ≤ 13, cell (1,0,0) reads indices 14 and 15. -/
def zcornC7 : List JSNum :=
  [.fin (qofNat 0), .fin (qofNat 0), .fin (qofNat 0), .fin (qofNat 0),
   .fin (qofNat 0), .fin (qofNat 0), .fin (qofNat 0), .fin (qofNat 0),
   .fin (qofNat 1), .fin (qofNat 1), .fin (qofNat 1), .fin (qofNat 1),
   .fin (qofNat 1), .fin (qofNat 1)]

def actnumC7 : List JSNum := [.fin (qofNat 1), .fin (qofNat 1)]

def sgC7 : Specgrid := ⟨.fin (qofNat 2), .fin (qofNat 1), .fin (qofNat 1)⟩

/-- The four pillars of the 1×1×1 unit cube, as parsed pillar records. -/
def pW00 : List JSVal :=
  [.num (.fin (qofNat 0)), .num (.fin (qofNat 0)), .num (.fin (qofNat 0)),
   .num (.fin (qofNat 0)), .num (.fin (qofNat 0)), .num (.fin (qofNat 1))]

def pW10 : List JSVal :=
  [.num (.fin (qofNat 1)), .num (.fin (qofNat 0)), .num (.fin (qofNat 0)),
   .num (.fin (qofNat 1)), .num (.fin (qofNat 0)), .num (.fin (qofNat 1))]

def pW01 : List JSVal :=
  [.num (.fin (qofNat 0)), .num (.fin (qofNat 1)), .num (.fin (qofNat 0)),
   .num (.fin (qofNat 0)), .num (.fin (qofNat 1)), .num (.fin (qofNat 1))]

def pW11 : List JSVal :=
  [.num (.fin (qofNat 1)), .num (.fin (qofNat 1)), .num (.fin (qofNat 0)),
   .num (.fin (qofNat 1)), .num (.fin (qofNat 1)), .num (.fin (qofNat 1))]

def coordW : List (List JSVal) := [pW00, pW10, pW01, pW11]

def zcornW : List JSNum :=
  [.fin (qofNat 0), .fin (qofNat 0), .fin (qofNat 0), .fin (qofNat 0),
   .fin (qofNat 1), .fin (qofNat 1), .fin (qofNat 1), .fin (qofNat 1)]

def actnumW : List JSNum := [.fin (qofNat 1)]

/-! ## Claims -/

theorem zAt_eq_num {zcorn : List JSNum} {n : ℕ} {z : JSNum}
    (h : zcorn.get? n = some z) : zAt zcorn n = .num z := by
  unfold zAt
  rw [h]

/-- C1: for every cell (i,j,k) in range whose ACTNUM entry is not the number
0, given COORD with at least (nx+1)*(ny+1) pillars and ZCORN of length
8*nx*ny*nz, the reconstructor succeeds and stores for that cell exactly 8
corners: corner m's z-coordinate is the ZCORN value at base offset
2*(i + j*(2*nx) + k*(2*nx*2*ny)) plus sub-offset 0, 1, 2*nx+1, 2*nx for
corners 0,1,2,3 and the same sub-offsets shifted by 4*nx*ny for corners
4,5,6,7, and corner m's (x,y) is obtained by linear interpolation at that
depth along pillar j*(nx+1)+i for corners 0 and 4, (i+1)+j*(nx+1) for 1 and
5, (i+1)+(j+1)*(nx+1) for 2 and 6, and i+(j+1)*(nx+1) for 3 and 7
(`interpolatePillar` returns the interpolated (x,y) with z passed through). -/
theorem grdecl_c1_cell_corners (nx ny nz : ℕ) (coord : List (List JSVal))
    (zcorn : List JSNum) (actnum : List JSNum) (i j k : ℕ)
    (p00 p10 p11 p01 : List JSVal) (z0 z1 z2 z3 z4 z5 z6 z7 : JSNum)
    (hi : i < nx) (hj : j < ny) (hk : k < nz)
    (hcoord : (nx + 1) * (ny + 1) ≤ coord.length)
    (hzcorn : zcorn.length = 8 * (nx * ny * nz))
    (hact : ¬ actnum.get? (i + j * nx + k * (nx * ny)) = some (JSNum.fin (qofNat 0)))
    (hp00 : coord.get? (j * (nx + 1) + i) = some p00)
    (hp10 : coord.get? (j * (nx + 1) + (i + 1)) = some p10)
    (hp11 : coord.get? ((j + 1) * (nx + 1) + (i + 1)) = some p11)
    (hp01 : coord.get? ((j + 1) * (nx + 1) + i) = some p01)
    (hz0 : zcorn.get? (2 * (i + j * (2 * nx) + k * (2 * nx * (2 * ny)))) = some z0)
    (hz1 : zcorn.get? (2 * (i + j * (2 * nx) + k * (2 * nx * (2 * ny))) + 1) = some z1)
    (hz2 : zcorn.get? (2 * (i + j * (2 * nx) + k * (2 * nx * (2 * ny))) + 2 * nx + 1) = some z2)
    (hz3 : zcorn.get? (2 * (i + j * (2 * nx) + k * (2 * nx * (2 * ny))) + 2 * nx) = some z3)
    (hz4 : zcorn.get? (2 * (i + j * (2 * nx) + k * (2 * nx * (2 * ny))) + 4 * (nx * ny)) = some z4)
    (hz5 : zcorn.get? (2 * (i + j * (2 * nx) + k * (2 * nx * (2 * ny))) + 4 * (nx * ny) + 1)
      = some z5)
    (hz6 : zcorn.get? (2 * (i + j * (2 * nx) + k * (2 * nx * (2 * ny))) + 4 * (nx * ny) + 2 * nx
      + 1) = some z6)
    (hz7 : zcorn.get? (2 * (i + j * (2 * nx) + k * (2 * nx * (2 * ny))) + 4 * (nx * ny) + 2 * nx)
      = some z7) :
    ∃ r, generateCellVertices ⟨.fin (qofNat nx), .fin (qofNat ny), .fin (qofNat nz)⟩
        coord zcorn actnum = .ok r ∧
      r.cellVertices.get? (i + j * nx + k * (nx * ny)) =
        some [interpolatePillar p00 (.num z0), interpolatePillar p10 (.num z1),
              interpolatePillar p11 (.num z2), interpolatePillar p01 (.num z3),
              interpolatePillar p00 (.num z4), interpolatePillar p10 (.num z5),
              interpolatePillar p11 (.num z6), interpolatePillar p01 (.num z7)] := by
  have hsg : (Specgrid.mk (.fin (qofNat nx)) (.fin (qofNat ny)) (.fin (qofNat nz))).nx.toLoopBound
      = nx := toLoopBound_qofNat nx
  have hsgy : (Specgrid.mk (.fin (qofNat nx)) (.fin (qofNat ny)) (.fin (qofNat nz))).ny.toLoopBound
      = ny := toLoopBound_qofNat ny
  have hsgz : (Specgrid.mk (.fin (qofNat nx)) (.fin (qofNat ny)) (.fin (qofNat nz))).nz.toLoopBound
      = nz := toLoopBound_qofNat nz
  obtain ⟨r, hr⟩ := @generateCellVertices_ok_of_complete
    ⟨.fin (qofNat nx), .fin (qofNat ny), .fin (qofNat nz)⟩ coord zcorn actnum
    (by rw [hsg, hsgy]; exact hcoord)
    (by rw [hsg, hsgy, hsgz]; omega)
  refine ⟨r, hr, ?_⟩
  obtain ⟨hcv, _⟩ := generateCellVertices_ok_inv hr
  rw [hsg, hsgy, hsgz] at hcv
  have hidx : i + j * nx + k * (nx * ny) = linIdx nx ny (i, j, k) := rfl
  rw [hcv, List.get?_map, hidx, cellEnum_get? hi hj hk]
  have hact' : ¬ actnum.get? (linIdx nx ny (i, j, k)) = some (JSNum.fin (qofNat 0)) := by
    rw [← hidx]
    exact hact
  simp only [Option.map_some', cellGeom, if_neg hact', Option.some_inj]
  have e00 : getPillarIndex nx (i, j, k).1 (i, j, k).2.1 = j * (nx + 1) + i := rfl
  have e10 : getPillarIndex nx ((i, j, k).1 + 1) (i, j, k).2.1 = j * (nx + 1) + (i + 1) := rfl
  have e11 : getPillarIndex nx ((i, j, k).1 + 1) ((i, j, k).2.1 + 1)
      = (j + 1) * (nx + 1) + (i + 1) := rfl
  have e01 : getPillarIndex nx (i, j, k).1 ((i, j, k).2.1 + 1) = (j + 1) * (nx + 1) + i := rfl
  have eoff : zcornOffset nx ny (i, j, k).1 (i, j, k).2.1 (i, j, k).2.2
      = 2 * (i + j * (2 * nx) + k * (2 * nx * (2 * ny))) := rfl
  rw [e00, e10, e11, e01, hp00, hp10, hp11, hp01, eoff,
    zAt_eq_num hz0, zAt_eq_num hz1, zAt_eq_num hz2, zAt_eq_num hz3,
    zAt_eq_num hz4, zAt_eq_num hz5, zAt_eq_num hz6, zAt_eq_num hz7]
  rfl

theorem grdecl_c1_cell_corners_witness :
    ∃ r, generateCellVertices ⟨.fin (qofNat 1), .fin (qofNat 1), .fin (qofNat 1)⟩
        coordW zcornW actnumW = .ok r ∧
      r.cellVertices.get? 0 =
        some [interpolatePillar pW00 (.num (.fin (qofNat 0))),
              interpolatePillar pW10 (.num (.fin (qofNat 0))),
              interpolatePillar pW11 (.num (.fin (qofNat 0))),
              interpolatePillar pW01 (.num (.fin (qofNat 0))),
              interpolatePillar pW00 (.num (.fin (qofNat 1))),
              interpolatePillar pW10 (.num (.fin (qofNat 1))),
              interpolatePillar pW11 (.num (.fin (qofNat 1))),
              interpolatePillar pW01 (.num (.fin (qofNat 1)))] :=
  grdecl_c1_cell_corners 1 1 1 coordW zcornW actnumW 0 0 0 pW00 pW10 pW11 pW01
    (.fin (qofNat 0)) (.fin (qofNat 0)) (.fin (qofNat 0)) (.fin (qofNat 0))
    (.fin (qofNat 1)) (.fin (qofNat 1)) (.fin (qofNat 1)) (.fin (qofNat 1))
    (by decide) (by decide) (by decide) (by decide) (by decide) (by decide)
    (by decide) (by decide) (by decide) (by decide) (by decide) (by decide)
    (by decide) (by decide) (by decide) (by decide) (by decide) (by decide)

/-- C2: for every valid input (parsed dimensions are the natural numbers
nx, ny, nz and the expanded ACTNUM has exactly nx*ny*nz entries), the
`cells.num` field returned by `parseGrdecl` equals the number of entries of
the expanded ACTNUM array that are not the number 0. -/
theorem grdecl_c2_active_count (t : String) (d : GrdeclData) (nx ny nz : ℕ)
    (hok : parseGrdecl t = .ok d)
    (hsg : d.specgrid = ⟨.fin (qofNat nx), .fin (qofNat ny), .fin (qofNat nz)⟩)
    (hlen : d.actnum.length = nx * ny * nz) :
    d.cells.num = countNonzero d.actnum := by
  obtain ⟨_, _, _, _, hgen⟩ := parseGrdecl_ok_inv hok
  obtain ⟨_, hnum⟩ := generateCellVertices_ok_inv hgen
  rw [hsg] at hnum
  simp only [toLoopBound_qofNat] at hnum
  rw [hnum, countP_isActive_eq hlen]

theorem grdecl_c2_active_count_witness :
    (parsedData unitCubeText).cells.num = countNonzero (parsedData unitCubeText).actnum :=
  grdecl_c2_active_count unitCubeText (parsedData unitCubeText) 1 1 1
    (by decide) (by decide) (by decide)

/-- C10: with COORD and ZCORN complete for the declared nx, ny, nz and an
arbitrary ACTNUM array (no length requirement — no error is raised for a
length mismatch), the reconstructor succeeds; it stores exactly nx*ny*nz
per-cell corner lists; a cell's list is empty exactly when its ACTNUM entry
is the number 0; a cell whose entry is missing (index at or beyond the
array's length), NaN, or any nonzero value gets a full 8-corner list; and
the active-cell counter counts exactly the cells treated as active. -/
theorem grdecl_c10_skip_iff (nx ny nz : ℕ) (coord : List (List JSVal))
    (zcorn : List JSNum) (actnum : List JSNum)
    (hcoord : (nx + 1) * (ny + 1) ≤ coord.length)
    (hzcorn : 8 * (nx * ny * nz) ≤ zcorn.length) :
    ∃ r, generateCellVertices ⟨.fin (qofNat nx), .fin (qofNat ny), .fin (qofNat nz)⟩
        coord zcorn actnum = .ok r ∧
      r.cellVertices.length = nx * ny * nz ∧
      (∀ i j k, i < nx → j < ny → k < nz →
        ((r.cellVertices.get? (i + j * nx + k * (nx * ny)) = some [] ↔
          actnum.get? (i + j * nx + k * (nx * ny)) = some (JSNum.fin (qofNat 0))) ∧
         (¬ actnum.get? (i + j * nx + k * (nx * ny)) = some (JSNum.fin (qofNat 0)) →
           ∃ l, r.cellVertices.get? (i + j * nx + k * (nx * ny)) = some l ∧ l.length = 8))) ∧
      r.num = (cellEnum nx ny nz).countP (isActiveCell nx ny actnum) := by
  obtain ⟨r, hr⟩ := @generateCellVertices_ok_of_complete
    ⟨.fin (qofNat nx), .fin (qofNat ny), .fin (qofNat nz)⟩ coord zcorn actnum
    (by simpa only [toLoopBound_qofNat] using hcoord)
    (by simpa only [toLoopBound_qofNat] using hzcorn)
  obtain ⟨hcv, hnum⟩ := generateCellVertices_ok_inv hr
  simp only [toLoopBound_qofNat] at hcv hnum
  refine ⟨r, hr, ?_, ?_, hnum⟩
  · rw [hcv, List.length_map, cellEnum_length]
  · intro i j k hi hj hk
    have hidx : i + j * nx + k * (nx * ny) = linIdx nx ny (i, j, k) := rfl
    have hget : r.cellVertices.get? (i + j * nx + k * (nx * ny)) =
        some (cellGeom nx ny coord zcorn actnum (i, j, k)) := by
      rw [hcv, List.get?_map, hidx, cellEnum_get? hi hj hk, Option.map_some']
    constructor
    · rw [hget]
      constructor
      · intro hsome
        by_contra hact
        have hact' : ¬ actnum.get? (linIdx nx ny (i, j, k))
            = some (JSNum.fin (qofNat 0)) := by
          rw [← hidx]
          exact hact
        simp only [cellGeom, if_neg hact', Option.some_inj] at hsome
        exact (by simp [corners8] : (corners8 ((coord.get? (getPillarIndex nx (i, j, k).1
          (i, j, k).2.1)).getD []) ((coord.get? (getPillarIndex nx ((i, j, k).1 + 1)
          (i, j, k).2.1)).getD []) ((coord.get? (getPillarIndex nx ((i, j, k).1 + 1)
          ((i, j, k).2.1 + 1))).getD []) ((coord.get? (getPillarIndex nx (i, j, k).1
          ((i, j, k).2.1 + 1))).getD [])
          (zAt zcorn (zcornOffset nx ny (i, j, k).1 (i, j, k).2.1 (i, j, k).2.2))
          (zAt zcorn (zcornOffset nx ny (i, j, k).1 (i, j, k).2.1 (i, j, k).2.2 + 1))
          (zAt zcorn (zcornOffset nx ny (i, j, k).1 (i, j, k).2.1 (i, j, k).2.2 + 2 * nx + 1))
          (zAt zcorn (zcornOffset nx ny (i, j, k).1 (i, j, k).2.1 (i, j, k).2.2 + 2 * nx))
          (zAt zcorn (zcornOffset nx ny (i, j, k).1 (i, j, k).2.1 (i, j, k).2.2 + 4 * (nx * ny)))
          (zAt zcorn (zcornOffset nx ny (i, j, k).1 (i, j, k).2.1 (i, j, k).2.2 + 4 * (nx * ny)
            + 1))
          (zAt zcorn (zcornOffset nx ny (i, j, k).1 (i, j, k).2.1 (i, j, k).2.2 + 4 * (nx * ny)
            + 2 * nx + 1))
          (zAt zcorn (zcornOffset nx ny (i, j, k).1 (i, j, k).2.1 (i, j, k).2.2 + 4 * (nx * ny)
            + 2 * nx))) ≠ []) hsome
      · intro hact
        have hact' : actnum.get? (linIdx nx ny (i, j, k)) = some (JSNum.fin (qofNat 0)) := by
          rw [← hidx]
          exact hact
        simp only [cellGeom, if_pos hact']
    · intro hact
      have hact' : ¬ actnum.get? (linIdx nx ny (i, j, k)) = some (JSNum.fin (qofNat 0)) := by
        rw [← hidx]
        exact hact
      refine ⟨cellGeom nx ny coord zcorn actnum (i, j, k), hget, ?_⟩
      simp only [cellGeom, if_neg hact']
      simp [corners8]

/-- Pillars of a 1×1×2 grid (four pillars, z from 0 to 2). -/
def coordW2 : List (List JSVal) :=
  [[.num (.fin (qofNat 0)), .num (.fin (qofNat 0)), .num (.fin (qofNat 0)),
    .num (.fin (qofNat 0)), .num (.fin (qofNat 0)), .num (.fin (qofNat 2))],
   [.num (.fin (qofNat 1)), .num (.fin (qofNat 0)), .num (.fin (qofNat 0)),
    .num (.fin (qofNat 1)), .num (.fin (qofNat 0)), .num (.fin (qofNat 2))],
   [.num (.fin (qofNat 0)), .num (.fin (qofNat 1)), .num (.fin (qofNat 0)),
    .num (.fin (qofNat 0)), .num (.fin (qofNat 1)), .num (.fin (qofNat 2))],
   [.num (.fin (qofNat 1)), .num (.fin (qofNat 1)), .num (.fin (qofNat 0)),
    .num (.fin (qofNat 1)), .num (.fin (qofNat 1)), .num (.fin (qofNat 2))]]

def zcornW2 : List JSNum :=
  [.fin (qofNat 0), .fin (qofNat 0), .fin (qofNat 0), .fin (qofNat 0),
   .fin (qofNat 1), .fin (qofNat 1), .fin (qofNat 1), .fin (qofNat 1),
   .fin (qofNat 1), .fin (qofNat 1), .fin (qofNat 1), .fin (qofNat 1),
   .fin (qofNat 2), .fin (qofNat 2), .fin (qofNat 2), .fin (qofNat 2)]

/-- An ACTNUM array that is too short for the 2 cells and whose only entry is
`NaN`: cell 0 reads `NaN` (treated active), cell 1 reads past the end
(treated active). -/
def actnumW2 : List JSNum := [JSNum.nan]

theorem grdecl_c10_skip_iff_witness :
    ∃ r, generateCellVertices ⟨.fin (qofNat 1), .fin (qofNat 1), .fin (qofNat 2)⟩
        coordW2 zcornW2 actnumW2 = .ok r ∧
      r.cellVertices.length = 1 * 1 * 2 ∧
      (∀ i j k, i < 1 → j < 1 → k < 2 →
        ((r.cellVertices.get? (i + j * 1 + k * (1 * 1)) = some [] ↔
          actnumW2.get? (i + j * 1 + k * (1 * 1)) = some (JSNum.fin (qofNat 0))) ∧
         (¬ actnumW2.get? (i + j * 1 + k * (1 * 1)) = some (JSNum.fin (qofNat 0)) →
           ∃ l, r.cellVertices.get? (i + j * 1 + k * (1 * 1)) = some l ∧ l.length = 8))) ∧
      r.num = (cellEnum 1 1 2).countP (isActiveCell 1 1 actnumW2) :=
  grdecl_c10_skip_iff 1 1 2 coordW2 zcornW2 actnumW2 (by decide) (by decide)

/-- C4: during one reconstruction pass, if two corner points are registered
(possibly with any other registrations in between) and their x, y and z
coordinates print identically under `toFixed(6)` (the key equality; this is
what "equal when rounded to 6 decimal places" computes in the source), then
the second registration returns the same pool index as the first, appends
nothing to the pool, the vertex array is append-only over the whole pass,
and every key→index binding assigned earlier persists unchanged. -/
theorem grdecl_c4_pool_dedup (p p₁ pm p₂ : VPool) (v₁ v₂ : Point3)
    (rest : List Point3) (i₁ i₂ : ℕ)
    (h₁ : addVertex p v₁ = .ok (p₁, i₁))
    (hm : addVerts p₁ rest = .ok pm)
    (h₂ : addVertex pm v₂ = .ok (p₂, i₂))
    (hkey : vkey3 v₁ = vkey3 v₂) :
    i₂ = i₁ ∧ p₂ = pm ∧ (∃ t, pm.verts = p.verts ++ t) ∧
    (∀ k n, p.map.lookup k = some n → p₂.map.lookup k = some n) := by
  cases hz : v₁.2.2 with
  | undefined => rw [addVertex_error_of_undefined hz] at h₁; cases h₁
  | num z =>
    have hk₁ := vkey3_num hz
    have hk₂ : vkey3 v₂ = .ok (toFixed6 v₁.1, toFixed6 v₁.2.1, toFixed6 z) := by
      rw [← hkey]
      exact hk₁
    have hext1 : poolExt p p₁ := addVertex_poolExt h₁
    have hextm : poolExt p₁ pm := addVerts_poolExt hm
    have hlookup : pm.map.lookup (toFixed6 v₁.1, toFixed6 v₁.2.1, toFixed6 z) = some i₁ := by
      cases hl : p.map.lookup (toFixed6 v₁.1, toFixed6 v₁.2.1, toFixed6 z) with
      | some idx =>
        rw [addVertex_hit hk₁ hl] at h₁
        obtain ⟨rfl, rfl⟩ : p = p₁ ∧ idx = i₁ := by
          simpa [Prod.ext_iff] using h₁
        exact hextm.2 _ _ hl
      | none =>
        rw [addVertex_miss hk₁ hl] at h₁
        obtain ⟨hp₁, rfl⟩ : VPool.mk (p.verts ++ [v₁])
            (((toFixed6 v₁.1, toFixed6 v₁.2.1, toFixed6 z), p.nextIdx) :: p.map)
            (p.nextIdx + 1) = p₁ ∧ p.nextIdx = i₁ := by
          simpa [Prod.ext_iff] using h₁
        apply hextm.2
        rw [← hp₁]
        simp [List.lookup]
    rw [addVertex_hit hk₂ hlookup] at h₂
    obtain ⟨rfl, rfl⟩ : pm = p₂ ∧ i₁ = i₂ := by
      simpa [Prod.ext_iff] using h₂
    have hextall : poolExt p pm := poolExt_trans hext1 hextm
    exact ⟨rfl, rfl, hextall.1, hextall.2⟩

def vW4 : Point3 := (.fin (qofNat 0), .fin (qofNat 0), .num (.fin (qofNat 0)))

def vW4' : Point3 := (.fin (qofNat 1), .fin (qofNat 0), .num (.fin (qofNat 0)))

def keyW0 : FixedKey × FixedKey × FixedKey :=
  (toFixed6 (.fin (qofNat 0)), toFixed6 (.fin (qofNat 0)), toFixed6 (.fin (qofNat 0)))

def keyW1 : FixedKey × FixedKey × FixedKey :=
  (toFixed6 (.fin (qofNat 1)), toFixed6 (.fin (qofNat 0)), toFixed6 (.fin (qofNat 0)))

def poolW1 : VPool := ⟨[vW4], [(keyW0, 0)], 1⟩

def poolW2 : VPool := ⟨[vW4, vW4'], [(keyW1, 1), (keyW0, 0)], 2⟩

theorem grdecl_c4_pool_dedup_witness :
    0 = 0 ∧ poolW2 = poolW2 ∧ (∃ t, poolW2.verts = VPool.empty.verts ++ t) ∧
    (∀ k n, VPool.empty.map.lookup k = some n → poolW2.map.lookup k = some n) :=
  grdecl_c4_pool_dedup VPool.empty poolW1 poolW2 poolW2 vW4 vW4 [vW4'] 0 0
    (by decide) (by decide) (by decide) rfl

/-- C3 counterexample: the synthetic generator has a fixed spacing of
10 × 10 × 1 and cannot produce a unit-spacing box, so for the claim's
scenario (nx=ny=nz=2 with unit spacing, hand-built unit-spacing GRDECL text)
the two corner sets differ: the generator emits the corner (10, 0, 0), which
the parsed unit-spacing grid does not contain.  The active-cell counts do
agree (8 and 8). -/
theorem grdecl_c3_counterexample :
    (createCartesianGRDECL 2 2 2).num = 8 ∧
    (parseGrdecl unitBoxText).isOk = true ∧
    parsedNum unitBoxText = 8 ∧
    toP3 (qofNat 10, qofNat 0, qofNat 0) ∈ genCorners222 ∧
    toP3 (qofNat 10, qofNat 0, qofNat 0) ∉ parsedCorners unitBoxText := by
  decide

/-- C3 amended: for the box nx=ny=nz=2 at the generator's fixed spacing
(10 × 10 × 1, not unit spacing), generating via `createCartesianGRDECL` and
feeding the equivalent hand-built GRDECL text through `parseGrdecl` yield
the same active-cell count (8) and the same set of corner coordinates up to
ordering/indexing, with 27 unique vertices in the deduplicated pool. -/
theorem grdecl_c3_amended :
    (createCartesianGRDECL 2 2 2).num = 8 ∧
    (parseGrdecl boxText10).isOk = true ∧
    parsedNum boxText10 = 8 ∧
    (∀ p ∈ genCorners222, p ∈ parsedCorners boxText10) ∧
    (∀ p ∈ parsedCorners boxText10, p ∈ genCorners222) ∧
    (parsedPool boxText10).length = 27 ∧
    (parsedPool boxText10).Nodup := by
  decide

/-- C5 counterexample: the token `0*1` has the compressed `count*value` form
with count 0, so per the claim the section content `0*1` must expand to the
empty array; the code instead falls into the empty-array default and fills
nx*ny*nz ones. -/
theorem grdecl_c5_counterexample :
    ([("0*1".toList)].flatMap expandToken) = [] ∧
    parseActnum [("0*1".toList)] ⟨.fin (qofNat 1), .fin (qofNat 1), .fin (qofNat 1)⟩
      = [JSNum.fin (qofNat 1)] := by
  decide

/-- C5 amended: whenever the concatenation of the per-token expansions is
nonempty, `parseActnum` returns exactly that concatenation — each compressed
`count*value` token expanded by repeating `value` `count` times and each
plain token parsed and appended as-is, in input order; when the
concatenated expansion is empty (e.g. every token has count 0) the
default nx*ny*nz-ones fill takes over instead.  In particular `48*1`
expands to 48 ones and `2*0 3*1` to [0,0,1,1,1]. -/
theorem grdecl_c5_expansion :
    (∀ (data : List (List Char)) (sg : Specgrid),
      (actnumTokens data).flatMap expandToken ≠ [] →
      parseActnum data sg = (actnumTokens data).flatMap expandToken) ∧
    (∀ sg : Specgrid, parseActnum [("48*1".toList)] sg
      = List.replicate 48 (JSNum.fin (qofNat 1))) ∧
    (∀ sg : Specgrid, parseActnum [("2*0 3*1".toList)] sg
      = [JSNum.fin (qofNat 0), JSNum.fin (qofNat 0), JSNum.fin (qofNat 1),
         JSNum.fin (qofNat 1), JSNum.fin (qofNat 1)]) := by
  have hgen : ∀ (data : List (List Char)) (sg : Specgrid),
      (actnumTokens data).flatMap expandToken ≠ [] →
      parseActnum data sg = (actnumTokens data).flatMap expandToken := by
    intro data sg h
    simp only [parseActnum, foldl_append_expand, List.nil_append]
    rw [if_neg h]
  refine ⟨hgen, ?_, ?_⟩
  · intro sg
    rw [hgen [("48*1".toList)] sg (by decide)]
    decide
  · intro sg
    rw [hgen [("2*0 3*1".toList)] sg (by decide)]
    decide

theorem grdecl_c5_expansion_witness :
    parseActnum [("2*0 3*1".toList)] ⟨.fin (qofNat 2), .fin (qofNat 2), .fin (qofNat 2)⟩
      = (actnumTokens [("2*0 3*1".toList)]).flatMap expandToken :=
  grdecl_c5_expansion.1 [("2*0 3*1".toList)]
    ⟨.fin (qofNat 2), .fin (qofNat 2), .fin (qofNat 2)⟩ (by decide)

/-- C6 counterexample: for a 2×2×2 input with no ACTNUM section the parse
succeeds, but the returned ACTNUM array is empty — the reader does not
synthesize an all-ones array of length nx*ny*nz = 8 (the default-fill sits
inside `parseActnum`, which is never invoked when the section is absent);
nonetheless all 8 cells are counted active. -/
theorem grdecl_c6_counterexample :
    (parseGrdecl noActnumText).isOk = true ∧
    parsedActnum noActnumText = [] ∧
    parsedActnum noActnumText ≠ List.replicate 8 (JSNum.fin (qofNat 1)) ∧
    parsedNum noActnumText = 8 := by
  decide

/-- C6 amended: if the input text contains no line starting with ACTNUM
(SPECGRID having been parsed to the natural numbers nx, ny, nz) and parsing
succeeds, the returned ACTNUM array is left empty — no all-ones array is
synthesized — and every cell is nonetheless treated as active because
missing entries are not the number 0, so activeCellCount equals
nx*ny*nz. -/
theorem grdecl_c6_missing_actnum (t : String) (d : GrdeclData) (nx ny nz : ℕ)
    (hok : parseGrdecl t = .ok d)
    (hno : ∀ l ∈ linesOf t, startsWithChars "ACTNUM".toList l = false)
    (hsg : d.specgrid = ⟨.fin (qofNat nx), .fin (qofNat ny), .fin (qofNat nz)⟩) :
    d.actnum = [] ∧ d.cells.num = nx * ny * nz := by
  obtain ⟨_, _, _, hact, hgen⟩ := parseGrdecl_ok_inv hok
  have hempty : d.actnum = [] := by
    rw [hact]
    exact foldl_processLine_no_actnum hno (by simp [PState.init]) rfl
  refine ⟨hempty, ?_⟩
  obtain ⟨_, hnum⟩ := generateCellVertices_ok_inv hgen
  rw [hsg] at hnum
  simp only [toLoopBound_qofNat] at hnum
  rw [hnum, hempty, countP_isActive_empty]

theorem grdecl_c6_missing_actnum_witness :
    (parsedData noActnumText).actnum = [] ∧ (parsedData noActnumText).cells.num = 2 * 2 * 2 :=
  grdecl_c6_missing_actnum noActnumText (parsedData noActnumText) 2 2 2
    (by decide) (by decide) (by decide)

/-- C7 counterexample: for a 2×1×1 grid whose ZCORN holds only 14 of the
required 16 entries, the loop first processes cell (0,0,0) successfully —
counting it active and building its 8 pool vertices, i.e. geometry IS built —
and the full reconstruction then aborts with the untyped runtime TypeError
raised mid-pass at cell (1,0,0); no dimension-mismatch diagnostic exists in
the code (its only possible failure is `JsErr.typeError`) and nothing is
surfaced before geometry building starts. -/
theorem grdecl_c7_counterexample :
    ((processCell 2 1 coordC7 zcornC7 actnumC7 GenState.init (0, 0, 0)).map
      (fun s => (s.activeCellCount, s.pool.verts.length, s.cellVertices.length)))
      = .ok (1, 8, 1) ∧
    generateCellVertices sgC7 coordC7 zcornC7 actnumC7 = .error .typeError := by
  decide

/-- C7 amended: the code performs no upfront dimension validation; whenever
some visited cell is treated as active and references a missing COORD pillar
or an out-of-range ZCORN entry, the reconstruction fails — but with the
untyped runtime TypeError thrown during the cell loop (after geometry for
earlier cells has been built), not with a dimension-mismatch error surfaced
before any geometry is built; missing data never referenced by an active
cell goes entirely undetected. -/
theorem grdecl_c7_untyped_failure (nx ny nz : ℕ) (coord : List (List JSVal))
    (zcorn : List JSNum) (actnum : List JSNum)
    (h : ∃ c ∈ cellEnum nx ny nz, cellThrows nx ny coord zcorn actnum c) :
    generateCellVertices ⟨.fin (qofNat nx), .fin (qofNat ny), .fin (qofNat nz)⟩
      coord zcorn actnum = .error .typeError := by
  apply generateCellVertices_error_of_throws
  simpa only [toLoopBound_qofNat] using h

instance cellThrowsDecidable (NX NY : ℕ) (coord : List (List JSVal)) (zcorn : List JSNum)
    (actnum : List JSNum) (c : ℕ × ℕ × ℕ) :
    Decidable (cellThrows NX NY coord zcorn actnum c) := by
  unfold cellThrows
  infer_instance

theorem grdecl_c7_untyped_failure_witness :
    generateCellVertices ⟨.fin (qofNat 2), .fin (qofNat 1), .fin (qofNat 1)⟩
      coordC7 zcornC7 actnumC7 = .error .typeError :=
  grdecl_c7_untyped_failure 2 1 1 coordC7 zcornC7 actnumC7 (by decide)

/-- C8 counterexample: for a 1×1×1 grid whose four pillars are all
degenerate (both endpoints at z = 5), parsing completes without raising
anything — there is no DegeneratePillarError (nor any typed error) in the
code — and the cell's stored corners are the undefined interpolation result
(NaN, NaN, 5). -/
theorem grdecl_c8_counterexample :
    (parseGrdecl degenText).isOk = true ∧
    (JSNum.nan, JSNum.nan, JSVal.num (JSNum.fin (qofNat 5))) ∈ parsedCorners degenText := by
  decide

/-- C8 amended: the code guards no division: when a pillar's two endpoints
share the same finite z (interpolation denominator zero), `interpolatePillar`
is total — it raises nothing — and its interpolated x and y coordinates are
always non-finite (NaN or ±Infinity), the undefined interpolation result the
claim says should be prevented. -/
theorem grdecl_c8_degenerate_pillar (pillar : List JSVal) (z : JSVal) (q : ℚ)
    (h2 : pillar.getD 2 .undefined = .num (.fin q))
    (h5 : pillar.getD 5 .undefined = .num (.fin q)) :
    (interpolatePillar pillar z).1.isFinite = false ∧
    (interpolatePillar pillar z).2.1.isFinite = false := by
  have ht : ((z.toNum.sub (pillar.getD 2 .undefined).toNum).div
      ((pillar.getD 5 .undefined).toNum.sub (pillar.getD 2 .undefined).toNum)).isFinite = false := by
    rw [h2, h5]
    simp only [JSVal.toNum, JSNum.sub]
    exact div_den_zero_nonfinite (qsub_self_num q)
  constructor
  · exact add_mul_nonfinite ht _ _
  · exact add_mul_nonfinite ht _ _

def degPillarW : List JSVal :=
  [.num (.fin (qofNat 0)), .num (.fin (qofNat 0)), .num (.fin (qofNat 5)),
   .num (.fin (qofNat 0)), .num (.fin (qofNat 0)), .num (.fin (qofNat 5))]

theorem grdecl_c8_degenerate_pillar_witness :
    (interpolatePillar degPillarW (.num (.fin (qofNat 5)))).1.isFinite = false ∧
    (interpolatePillar degPillarW (.num (.fin (qofNat 5)))).2.1.isFinite = false :=
  grdecl_c8_degenerate_pillar degPillarW (.num (.fin (qofNat 5))) (qofNat 5)
    (by decide) (by decide)

/-- C9 counterexample: parsing the malformed SPECGRID input "2 2 F /"
raises nothing: `parseGrdecl` returns successfully with nz = NaN (and an
empty grid), instead of a FormatError or DimensionMismatchError — neither of
which exists anywhere in the code. -/
theorem grdecl_c9_counterexample :
    parseGrdecl specgridBadText =
      .ok ⟨⟨.fin (qofNat 2), .fin (qofNat 2), .nan⟩, [], [], [], ⟨0, [], []⟩⟩ := by
  decide

/-- C9 amended: for the malformed SPECGRID input "2 2 F /" (nz missing),
`parseSpecgrid` silently yields nx = 2, ny = 2, nz = NaN (`parseInt` of a
missing token), no error of any kind is raised, and the reconstructor then
silently treats the NaN-dimensioned grid as having zero cells. -/
theorem grdecl_c9_nan_dimension :
    parseSpecgrid [("2 2 F".toList)] = ⟨.fin (qofNat 2), .fin (qofNat 2), .nan⟩ ∧
    (parseGrdecl specgridBadText).isOk = true ∧
    (parsedData specgridBadText).specgrid.nz = JSNum.nan ∧
    parsedNum specgridBadText = 0 := by
  decide
